import Mathlib

/-!
Verification development for the kueue-bench WorkerSet expansion and
derivation engine (`pkg/config`): a shallow embedding of the Go data model
and of the functions `ExpandWorkerSets`, `DeriveManagementKueueConfig` and
`ValidateTopology`, together with theorems settling the specification
claims about them.

Resource quantities (`k8s.io/apimachinery/pkg/api/resource.Quantity`) are
modelled exactly: a quantity is an unbounded integer mantissa together with
a decimal scale (the Go implementation stores an `int64` mantissa and falls
back to an exact `inf.Dec` representation on overflow, so unbounded integer
arithmetic has the same exact-value semantics), plus the remembered format
used for canonical serialization.
-/

namespace KueueBench

/-- Mirrors `resource.Format`. The Go zero value of `Quantity` carries the
empty-string format, modelled here as `unspecified`; `CanonicalizeBytes`
treats it like `DecimalExponent`. -/
inductive Format where
  | decimalExponent
  | binarySI
  | decimalSI
  | unspecified
  deriving DecidableEq, Repr

/-- Mirrors `resource.Quantity` (int64Amount): exact value is
`value * 10 ^ scale`. -/
structure Quantity where
  value : Int
  scale : Int
  format : Format
  deriving DecidableEq, Repr

/-- The Go zero value `resource.Quantity{}`. -/
def zeroQuantity : Quantity := ⟨0, 0, Format.unspecified⟩

/-- Exact rational value of a quantity. -/
def Quantity.toRat (q : Quantity) : ℚ := (q.value : ℚ) * (10 : ℚ) ^ q.scale

/-- Mirrors `Quantity.Add` (the exact `int64Amount.Add` path: align the two
mantissas at the smaller scale and add; a zero receiver first adopts the
argument's format, and a zero argument leaves value and scale untouched). -/
def Quantity.add (a b : Quantity) : Quantity :=
  let fmt := if a.value = 0 then b.format else a.format
  if b.value = 0 then { a with format := fmt }
  else if a.value = 0 then { b with format := fmt }
  else if a.scale = b.scale then ⟨a.value + b.value, a.scale, fmt⟩
  else if b.scale < a.scale then
    ⟨a.value * 10 ^ (a.scale - b.scale).toNat + b.value, b.scale, fmt⟩
  else
    ⟨a.value + b.value * 10 ^ (b.scale - a.scale).toNat, a.scale, fmt⟩

theorem pow_toNat_eq_zpow {s : Int} (h : 0 ≤ s) :
    ((10 : ℚ) ^ s.toNat) = (10 : ℚ) ^ s := by
  rw [← zpow_natCast, Int.toNat_of_nonneg h]

theorem zpow_sub_mul {s t : Int} (h : t ≤ s) :
    ((10 : ℚ) ^ (s - t).toNat) * (10 : ℚ) ^ t = (10 : ℚ) ^ s := by
  rw [pow_toNat_eq_zpow (by omega), ← zpow_add₀ (by norm_num : (10 : ℚ) ≠ 0)]
  congr 1
  omega

/-- Addition of quantities is exact: the rational value of the sum is the
sum of the rational values. -/
theorem Quantity.toRat_add (a b : Quantity) :
    (a.add b).toRat = a.toRat + b.toRat := by
  unfold Quantity.add Quantity.toRat
  by_cases hb : b.value = 0
  · simp [hb]
  · by_cases ha : a.value = 0
    · simp [ha, hb]
    · by_cases hs : a.scale = b.scale
      · simp only [hb, ha, hs, if_neg, if_pos, if_false]
        push_cast
        ring
      · by_cases hlt : b.scale < a.scale
        · simp only [hb, ha, hs, hlt, if_neg, if_pos, if_false]
          push_cast
          rw [add_mul, mul_assoc, zpow_sub_mul (le_of_lt hlt)]
        · simp only [hb, ha, hs, hlt, if_neg, if_false]
          push_cast
          rw [add_mul, mul_assoc, zpow_sub_mul (by omega)]

/-- `addTimes q n` is `q` added to itself `n` more times: the value of
`total` in `deriveQuotas` after `n` iterations of `total.Add(q)`. -/
def addTimes (q : Quantity) : Nat → Quantity
  | 0 => q
  | n + 1 => (addTimes q n).add q

theorem addTimes_toRat (q : Quantity) (n : Nat) :
    (addTimes q n).toRat = (n + 1 : ℚ) * q.toRat := by
  induction n with
  | zero => simp [addTimes]
  | succ n ih =>
    rw [addTimes, Quantity.toRat_add, ih]
    push_cast
    ring

/-! ### Parsing (`resource.ParseQuantity`)

Grammar: optional sign, decimal digits, optional fractional part, then a
suffix — one of the decimal SI suffixes `n u m k M G T P E`, a binary
suffix `Ki Mi Gi Ti Pi Ei`, a decimal exponent `e<int>`/`E<int>`, or empty.
An unrecognized suffix is a parse error. -/

def digitsToNat (cs : List Char) : Nat :=
  cs.foldl (fun acc c => acc * 10 + (c.toNat - 48)) 0

inductive SuffixKind where
  | dec (e : Int) (fmt : Format)
  | bin (e : Nat)
  deriving DecidableEq, Repr

def parseExpDigits (cs : List Char) : Option Int :=
  let (sgn, rest) :=
    match cs with
    | '-' :: r => ((-1 : Int), r)
    | '+' :: r => ((1 : Int), r)
    | r => ((1 : Int), r)
  if rest ≠ [] ∧ rest.all Char.isDigit then
    some (sgn * (digitsToNat rest : Int))
  else
    none

def interpretSuffix : List Char → Option SuffixKind
  | [] => some (.dec 0 Format.decimalSI)
  | ['n'] => some (.dec (-9) Format.decimalSI)
  | ['u'] => some (.dec (-6) Format.decimalSI)
  | ['m'] => some (.dec (-3) Format.decimalSI)
  | ['k'] => some (.dec 3 Format.decimalSI)
  | ['M'] => some (.dec 6 Format.decimalSI)
  | ['G'] => some (.dec 9 Format.decimalSI)
  | ['T'] => some (.dec 12 Format.decimalSI)
  | ['P'] => some (.dec 15 Format.decimalSI)
  | ['E'] => some (.dec 18 Format.decimalSI)
  | ['K', 'i'] => some (.bin 10)
  | ['M', 'i'] => some (.bin 20)
  | ['G', 'i'] => some (.bin 30)
  | ['T', 'i'] => some (.bin 40)
  | ['P', 'i'] => some (.bin 50)
  | ['E', 'i'] => some (.bin 60)
  | c :: rest =>
    if c = 'e' ∨ c = 'E' then (parseExpDigits rest).map (fun e => .dec e Format.decimalExponent)
    else none

/-- Mirrors `resource.ParseQuantity` on its exact (non-rounding) paths:
mantissa digits with optional fraction, then suffix interpretation. A
binary suffix multiplies the mantissa by `2^e` exactly; a decimal suffix
or exponent shifts the decimal scale. -/
def ParseQuantity (s : String) : Option Quantity :=
  match s.data with
  | [] => none
  | cs =>
    let (pos, cs1) :=
      match cs with
      | '-' :: r => (false, r)
      | '+' :: r => (true, r)
      | r => (true, r)
    let num := cs1.takeWhile Char.isDigit
    let rest1 := cs1.dropWhile Char.isDigit
    let (denom, rest2) :=
      match rest1 with
      | '.' :: r => (r.takeWhile Char.isDigit, r.dropWhile Char.isDigit)
      | _ => (([] : List Char), rest1)
    let mant : Int := (digitsToNat (num ++ denom) : Int)
    let sgn : Int := if pos then 1 else -1
    let dl : Int := (denom.length : Int)
    match interpretSuffix rest2 with
    | some (SuffixKind.dec e fmt) => some ⟨sgn * mant, e - dl, fmt⟩
    | some (SuffixKind.bin e) => some ⟨sgn * mant * 2 ^ e, -dl, Format.binarySI⟩
    | none => none

/-- `resource.MustParse` panics on a parse error; call sites in the source
receive pre-validated strings, and every claim proved against this total
model hypothesizes inputs on which the default value is unreachable. The
panic itself is modelled faithfully by `addResourcesChecked` and the other
`Checked` aggregation functions below, used to settle the totality
question of claim C10. -/
def MustParse (s : String) : Quantity := (ParseQuantity s).getD zeroQuantity

/-! ### Canonical serialization (`Quantity.String` / `CanonicalizeBytes`) -/

/-- Mirrors `removeInt64Factors` on the absolute value: divide out `base`
while the value is at least `base` and divisible. Fuel-based structural
recursion; fuel 64 bounds the iteration count for every mantissa the Go
implementation can hold (an `int64` has at most 19 decimal digits, and Go
falls back to `inf.Dec` beyond that). -/
def stripFactors : Nat → Nat → Nat → Nat × Nat
  | 0, n, _ => (n, 0)
  | fuel + 1, n, base =>
    if base ≤ n ∧ n % base = 0 ∧ 2 ≤ base then
      let p := stripFactors fuel (n / base) base
      (p.1, p.2 + 1)
    else (n, 0)

def natToDigits : Nat → Nat → List Char
  | 0, n => [Char.ofNat (48 + n % 10)]
  | fuel + 1, n =>
    if n < 10 then [Char.ofNat (48 + n)]
    else natToDigits fuel (n / 10) ++ [Char.ofNat (48 + n % 10)]

def natToStr (n : Nat) : String := ⟨natToDigits 64 n⟩

def intToStr (i : Int) : String :=
  if i < 0 then "-" ++ natToStr i.natAbs else natToStr i.natAbs

/-- Mirrors `int64Amount.AsCanonicalBytes`: strip trailing decimal zeros
into the exponent, then force the exponent to a multiple of three (Go's
`%` truncates toward zero, hence `Int.tmod`). -/
def decCanonical (value scale : Int) : Int × Int :=
  let p := stripFactors 64 value.natAbs 10
  let amount : Int := if value < 0 then -(p.1 : Int) else (p.1 : Int)
  let exponent : Int := scale + (p.2 : Int)
  let m := exponent.tmod 3
  if m = 1 ∨ m = -2 then (amount * 10, exponent - 1)
  else if m = 2 ∨ m = -1 then (amount * 100, exponent - 2)
  else (amount, exponent)

def decSuffix (e : Int) : Option String :=
  if e = -9 then some "n"
  else if e = -6 then some "u"
  else if e = -3 then some "m"
  else if e = 0 then some ""
  else if e = 3 then some "k"
  else if e = 6 then some "M"
  else if e = 9 then some "G"
  else if e = 12 then some "T"
  else if e = 15 then some "P"
  else if e = 18 then some "E"
  else none

/-- Mirrors `suffixer.constructBytes` for base 10 (a failed decimal-SI
lookup yields no suffix, as in the Go table lookup). -/
def suffixFor (fmt : Format) (e : Int) : String :=
  match fmt with
  | Format.decimalSI => (decSuffix e).getD ""
  | Format.decimalExponent => if e = 0 then "" else "e" ++ intToStr e
  | _ => ""

def binSuffix (times : Nat) : String :=
  match times with
  | 1 => "Ki"
  | 2 => "Mi"
  | 3 => "Gi"
  | 4 => "Ti"
  | 5 => "Pi"
  | 6 => "Ei"
  | _ => ""

/-- Mirrors `Quantity.CmpInt64`: exact comparison of the quantity's value
with an integer. -/
def qCmpInt (q : Quantity) (y : Int) : Ordering :=
  if 0 ≤ q.scale then compare (q.value * 10 ^ q.scale.toNat) y
  else compare q.value (y * 10 ^ (-q.scale).toNat)

/-- Mirrors `Quantity.AsScale(0)` restricted to the exact case: the integer
value of the quantity when it is a whole number, else `none`. -/
def asScale0 (q : Quantity) : Option Int :=
  if 0 ≤ q.scale then some (q.value * 10 ^ q.scale.toNat)
  else
    let d : Int := 10 ^ (-q.scale).toNat
    if q.value % d = 0 then some (q.value / d) else none

def decimalString (value scale : Int) (fmt : Format) : String :=
  let p := decCanonical value scale
  intToStr p.1 ++ suffixFor fmt p.2

/-- Mirrors `Quantity.String` via `CanonicalizeBytes`: zero prints as "0";
binary-SI quantities smaller than 1024 in magnitude, or with a fractional
value, fall back to decimal-SI; otherwise the integer value is factored by
1024 and given a binary suffix. -/
def Quantity.toString (q : Quantity) : String :=
  if q.value = 0 then "0"
  else
    match q.format with
    | Format.binarySI =>
      if qCmpInt q (-1024) = Ordering.gt ∧ qCmpInt q 1024 = Ordering.lt then
        decimalString q.value q.scale Format.decimalSI
      else
        match asScale0 q with
        | some v =>
          let p := stripFactors 64 v.natAbs 1024
          let amount : Int := if v < 0 then -(p.1 : Int) else (p.1 : Int)
          intToStr amount ++ binSuffix p.2
        | none => decimalString q.value q.scale Format.decimalSI
    | Format.decimalSI => decimalString q.value q.scale Format.decimalSI
    | _ => decimalString q.value q.scale Format.decimalExponent

/-! ### Data model (types.go) -/

structure Taint where
  Key : String
  Value : String
  Effect : String
  deriving DecidableEq, Repr

/-- `corev1.Toleration`, restricted to the fields the source sets. -/
structure Toleration where
  Key : String
  Operator : String
  Value : String
  Effect : String
  deriving DecidableEq, Repr

/-- Go `map[string]string` fields (resources, labels) are modelled as
association lists with unique keys; all source loops either iterate a
declared list and look keys up, or iterate the map where order does not
affect the properties proved here. -/
structure NodePool where
  Name : String
  Count : Int
  Resources : List (String × String)
  Labels : List (String × String)
  Taints : List Taint
  deriving DecidableEq, Repr

structure ResourceFlavor where
  Name : String
  NodeLabels : List (String × String)
  Tolerations : List Toleration
  deriving DecidableEq, Repr

structure Resource where
  Name : String
  NominalQuota : String
  BorrowingLimit : String
  LendingLimit : String
  deriving DecidableEq, Repr

structure FlavorQuotas where
  Name : String
  Resources : List Resource
  deriving DecidableEq, Repr

structure ResourceGroup where
  CoveredResources : List String
  Flavors : List FlavorQuotas
  deriving DecidableEq, Repr

structure FairSharing where
  Weight : Int
  deriving DecidableEq, Repr

structure BorrowingConfig where
  Policy : String
  MaxPriorityThreshold : Option Int
  deriving DecidableEq, Repr

structure PreemptionConfig where
  WithinClusterQueue : String
  ReclaimWithinCohort : String
  BorrowWithinCohort : Option BorrowingConfig
  deriving DecidableEq, Repr

structure LabelSelector where
  MatchLabels : List (String × String)
  deriving DecidableEq, Repr

structure ClusterQueue where
  Name : String
  Cohort : String
  NamespaceSelector : Option LabelSelector
  Preemption : Option PreemptionConfig
  ResourceGroups : List ResourceGroup
  AdmissionChecks : List String
  FairSharing : Option FairSharing
  deriving DecidableEq, Repr

structure LocalQueue where
  Name : String
  Namespace : String
  ClusterQueue : String
  deriving DecidableEq, Repr

structure Cohort where
  Name : String
  ParentName : String
  ResourceGroups : List ResourceGroup
  FairSharing : Option FairSharing
  deriving DecidableEq, Repr

structure WorkloadPriorityClass where
  Name : String
  Value : Int
  Description : String
  deriving DecidableEq, Repr

structure KueueConfig where
  Cohorts : List Cohort
  ResourceFlavors : List ResourceFlavor
  ClusterQueues : List ClusterQueue
  LocalQueues : List LocalQueue
  PriorityClasses : List WorkloadPriorityClass
  deriving DecidableEq, Repr

structure ClusterConfig where
  Name : String
  Role : String
  KubernetesVersion : String
  NodePools : List NodePool
  Kueue : Option KueueConfig
  deriving DecidableEq, Repr

/-- The Go zero value `ClusterConfig{}` (what a missing-key map lookup
yields in `DeriveManagementKueueConfig`). -/
def emptyClusterConfig : ClusterConfig := ⟨"", "", "", [], none⟩

structure WorkerSetFlavor where
  Name : String
  NodePoolRef : String
  deriving DecidableEq, Repr

structure WorkerSetFlavorRef where
  Name : String
  deriving DecidableEq, Repr

structure WorkerSetResourceGroup where
  CoveredResources : List String
  Flavors : List WorkerSetFlavorRef
  deriving DecidableEq, Repr

structure WorkerSetClusterQueue where
  Name : String
  Cohort : String
  NamespaceSelector : Option LabelSelector
  Preemption : Option PreemptionConfig
  ResourceGroups : List WorkerSetResourceGroup
  AdmissionChecks : List String
  FairSharing : Option FairSharing
  deriving DecidableEq, Repr

structure Worker where
  Name : String
  NodePools : List NodePool
  deriving DecidableEq, Repr

structure WorkerSet where
  Name : String
  ResourceFlavors : List WorkerSetFlavor
  ClusterQueues : List WorkerSetClusterQueue
  LocalQueues : List LocalQueue
  Workers : List Worker
  deriving DecidableEq, Repr

structure Metadata where
  Name : String
  Annotations : List (String × String)
  deriving DecidableEq, Repr

structure KueueSettings where
  Version : String
  ImageRepository : String
  ImageTag : String
  deriving DecidableEq, Repr

structure KwokSettings where
  Version : String
  deriving DecidableEq, Repr

structure TopologySpec where
  Kueue : Option KueueSettings
  Kwok : Option KwokSettings
  Clusters : List ClusterConfig
  WorkerSets : List WorkerSet
  deriving DecidableEq, Repr

structure Topology where
  APIVersion : String
  Kind : String
  Metadata : KueueBench.Metadata
  Spec : TopologySpec
  deriving DecidableEq, Repr

def APIVersionConst : String := "kueue-bench.io/v1alpha1"
def KindTopology : String := "Topology"
def RoleStandalone : String := "standalone"
def RoleManagement : String := "management"
def RoleWorker : String := "worker"

/-! ### Expansion engine (workerset.go) -/

/-- Go builds `map[string]string` by assignment in declaration order; a
later binding for the same key overwrites an earlier one. -/
def buildFlavorPools (flavors : List WorkerSetFlavor) : String → Option String :=
  flavors.foldl (fun m f => fun n => if n = f.Name then some f.NodePoolRef else m n)
    (fun _ => none)

def buildPools (pools : List NodePool) : String → Option NodePool :=
  pools.foldl (fun m p => fun n => if n = p.Name then some p else m n) (fun _ => none)

def taintsToTolerations (taints : List Taint) : List Toleration :=
  if taints = [] then []
  else taints.map (fun t => { Key := t.Key, Operator := "Equal", Value := t.Value, Effect := t.Effect })

def deriveResourceFlavors (pools : String → Option NodePool) :
    List WorkerSetFlavor → Option (List ResourceFlavor)
  | [] => some []
  | f :: rest => do
    let pool ← pools f.NodePoolRef
    let tail ← deriveResourceFlavors pools rest
    pure ({ Name := f.Name, NodeLabels := pool.Labels,
            Tolerations := taintsToTolerations pool.Taints } :: tail)

/-- Mirrors `deriveQuotas`: for each covered resource, look the per-node
quantity up in the pool, parse it, and sum it `Count` times by repeated
addition (`total := q; for i := 1; i < pool.Count; i++ { total.Add(q) }`,
i.e. `addTimes q (Count-1)` additions in total). -/
def deriveQuotas (pool : NodePool) : List String → Option (List Resource)
  | [] => some []
  | resName :: rest => do
    let quantityStr ← pool.Resources.lookup resName
    let q ← ParseQuantity quantityStr
    let total := addTimes q (pool.Count - 1).toNat
    let tail ← deriveQuotas pool rest
    pure ({ Name := resName, NominalQuota := total.toString,
            BorrowingLimit := "", LendingLimit := "" } :: tail)

def deriveRGFlavors (covered : List String) (flavorPools : String → Option String)
    (pools : String → Option NodePool) : List WorkerSetFlavorRef → Option (List FlavorQuotas)
  | [] => some []
  | fr :: rest => do
    let poolName ← flavorPools fr.Name
    let pool ← pools poolName
    let resources ← deriveQuotas pool covered
    let tail ← deriveRGFlavors covered flavorPools pools rest
    pure ({ Name := fr.Name, Resources := resources } :: tail)

def deriveResourceGroups (flavorPools : String → Option String)
    (pools : String → Option NodePool) : List WorkerSetResourceGroup → Option (List ResourceGroup)
  | [] => some []
  | wsRG :: rest => do
    let flavors ← deriveRGFlavors wsRG.CoveredResources flavorPools pools wsRG.Flavors
    let tail ← deriveResourceGroups flavorPools pools rest
    pure ({ CoveredResources := wsRG.CoveredResources, Flavors := flavors } :: tail)

def deriveClusterQueues (flavorPools : String → Option String)
    (pools : String → Option NodePool) : List WorkerSetClusterQueue → Option (List ClusterQueue)
  | [] => some []
  | wsCQ :: rest => do
    let rgs ← deriveResourceGroups flavorPools pools wsCQ.ResourceGroups
    let tail ← deriveClusterQueues flavorPools pools rest
    pure ({ Name := wsCQ.Name, Cohort := wsCQ.Cohort,
            NamespaceSelector := wsCQ.NamespaceSelector,
            Preemption := wsCQ.Preemption,
            ResourceGroups := rgs,
            AdmissionChecks := wsCQ.AdmissionChecks,
            FairSharing := wsCQ.FairSharing } :: tail)

def expandWorker (ws : WorkerSet) (worker : Worker)
    (flavorPools : String → Option String) : Option ClusterConfig := do
  let pools := buildPools worker.NodePools
  let resourceFlavors ← deriveResourceFlavors pools ws.ResourceFlavors
  let clusterQueues ← deriveClusterQueues flavorPools pools ws.ClusterQueues
  pure { Name := worker.Name, Role := RoleWorker, KubernetesVersion := "",
         NodePools := worker.NodePools,
         Kueue := some { Cohorts := [], ResourceFlavors := resourceFlavors,
                         ClusterQueues := clusterQueues,
                         LocalQueues := ws.LocalQueues, PriorityClasses := [] } }

def expandWorkers (ws : WorkerSet) (flavorPools : String → Option String) :
    List Worker → Option (List ClusterConfig)
  | [] => some []
  | w :: rest => do
    let c ← expandWorker ws w flavorPools
    let cs ← expandWorkers ws flavorPools rest
    pure (c :: cs)

/-- Mirrors `ExpandWorkerSets`: one concrete cluster per worker, appended
in WorkerSet order then worker order, failing fast on the first error. -/
def ExpandWorkerSets : List WorkerSet → Option (List ClusterConfig)
  | [] => some []
  | ws :: rest => do
    let flavorPools := buildFlavorPools ws.ResourceFlavors
    let cs ← expandWorkers ws flavorPools ws.Workers
    let more ← ExpandWorkerSets rest
    pure (cs ++ more)

/-! ### Aggregation/derivation engine (multikueue.go) -/

/-- The matching ClusterQueue of one worker, as `aggregateWorkerQuotas`
finds it: skip workers without a Kueue config, take the first ClusterQueue
whose name matches. -/
def findWorkerCQ (cqName : String) (w : ClusterConfig) : Option ClusterQueue :=
  match w.Kueue with
  | none => none
  | some k => k.ClusterQueues.find? (fun cq => cq.Name == cqName)

/-- The inner loop `for i, res := range workerFlavor.Resources {
aggregated[i].Add(MustParse(res.NominalQuota)) }`. Indexing past the end
of `aggregated` panics in Go; the shape hypotheses of the claims proved
against this total model make that case (modelled here by truncation)
unreachable, and `addResourcesChecked` below models the panic itself. -/
def addResources : List Quantity → List Resource → List Quantity
  | acc, [] => acc
  | [], _ :: _ => []
  | a :: rest, r :: rs => a.add (MustParse r.NominalQuota) :: addResources rest rs

/-- `workerCQ.ResourceGroups[rgIdx].Flavors[flavorIdx].Resources`; Go
panics when an index is out of range, which the claims' shape hypotheses
exclude here — `resourcesAtIdxChecked` below models the panic itself. -/
def resourcesAtIdx (wcq : ClusterQueue) (rgIdx flavorIdx : Nat) : List Resource :=
  ((wcq.ResourceGroups.getD rgIdx ⟨[], []⟩).Flavors.getD flavorIdx ⟨"", []⟩).Resources

/-- One flavor position of the aggregation: fold every worker's matching
resources into the accumulator (initially zero quantities, one per
resource of the template's flavor), then re-serialize. -/
def aggFlavor (workerCQs : List ClusterQueue) (rgIdx flavorIdx : Nat)
    (flavor : FlavorQuotas) : FlavorQuotas :=
  let aggregated := workerCQs.foldl
    (fun acc wcq => addResources acc (resourcesAtIdx wcq rgIdx flavorIdx))
    (List.replicate flavor.Resources.length zeroQuantity)
  { Name := flavor.Name,
    Resources := List.zipWith
      (fun res agg => { Name := res.Name, NominalQuota := Quantity.toString agg,
                        BorrowingLimit := "", LendingLimit := "" })
      flavor.Resources aggregated }

def mapIdxFrom (f : Nat → α → β) : Nat → List α → List β
  | _, [] => []
  | i, a :: as => f i a :: mapIdxFrom f (i + 1) as

/-- Mirrors `aggregateWorkerQuotas`: collect each worker's ClusterQueue of
the given name, use the first as the structural template, and sum quotas
position-for-position. -/
def aggregateWorkerQuotas (cqName : String) (workers : List ClusterConfig) :
    List ResourceGroup :=
  let workerCQs := workers.filterMap (findWorkerCQ cqName)
  match workerCQs with
  | [] => []
  | templateCQ :: _ =>
    mapIdxFrom (fun rgIdx rg =>
      { CoveredResources := rg.CoveredResources,
        Flavors := mapIdxFrom (fun flavorIdx flavor =>
          aggFlavor workerCQs rgIdx flavorIdx flavor) 0 rg.Flavors })
      0 templateCQ.ResourceGroups

/-- Mirrors `deriveManagementResourceFlavors`: one `seen` set shared by the
whole nested loop, minimal flavors appended in first-seen order. -/
def deriveManagementResourceFlavors (workerSets : List WorkerSet) : List ResourceFlavor :=
  (workerSets.foldl (fun st ws =>
      ws.ResourceFlavors.foldl (fun st' f =>
        if st'.1.contains f.Name then st'
        else (f.Name :: st'.1, st'.2 ++ [{ Name := f.Name, NodeLabels := [], Tolerations := [] }]))
        st)
    (([] : List String), ([] : List ResourceFlavor))).2

def lqKey (lq : LocalQueue) : String := lq.Namespace ++ "/" ++ lq.Name

/-- Mirrors `deriveManagementLocalQueues`: deduplicate by namespace/name
key, first occurrence wins, one `seen` set across all WorkerSets. -/
def deriveManagementLocalQueues (workerSets : List WorkerSet) : List LocalQueue :=
  (workerSets.foldl (fun st ws =>
      ws.LocalQueues.foldl (fun st' lq =>
        if st'.1.contains (lqKey lq) then st'
        else (lqKey lq :: st'.1, st'.2 ++ [lq])) st)
    (([] : List String), ([] : List LocalQueue))).2

/-- The ClusterQueue `deriveManagementClusterQueues` appends for one
WorkerSet template: structural fields copied from the template, quotas
aggregated, the WorkerSet name prepended as an admission check
(`admissionChecks := []string{ws.Name}` then `append` when the template
declares its own). -/
def mgmtCQ (workersByWS : String → List ClusterConfig) (ws : WorkerSet)
    (wsCQ : WorkerSetClusterQueue) : ClusterQueue :=
  let aggregatedRGs := aggregateWorkerQuotas wsCQ.Name (workersByWS ws.Name)
  let admissionChecks :=
    if wsCQ.AdmissionChecks = [] then [ws.Name] else ws.Name :: wsCQ.AdmissionChecks
  { Name := wsCQ.Name, Cohort := wsCQ.Cohort,
    NamespaceSelector := wsCQ.NamespaceSelector,
    Preemption := wsCQ.Preemption,
    ResourceGroups := aggregatedRGs,
    AdmissionChecks := admissionChecks,
    FairSharing := wsCQ.FairSharing }

/-- Mirrors `deriveManagementClusterQueues`. -/
def deriveManagementClusterQueues (workerSets : List WorkerSet)
    (workersByWS : String → List ClusterConfig) : List ClusterQueue :=
  workerSets.foldl (fun cqs ws =>
    ws.ClusterQueues.foldl (fun cqs' wsCQ =>
      cqs' ++ [mgmtCQ workersByWS ws wsCQ]) cqs) []

/-- `workerByName`: a Go map built by assignment over `expandedWorkers`
(last write wins); a missing key yields the zero value. -/
def buildWorkerByName (expandedWorkers : List ClusterConfig) : String → Option ClusterConfig :=
  expandedWorkers.foldl (fun m w => fun n => if n = w.Name then some w else m n) (fun _ => none)

/-- `workersByWS`: group the expanded workers by WorkerSet name, appending
in WorkerSet-then-worker order. -/
def buildWorkersByWS (workerSets : List WorkerSet)
    (workerByName : String → Option ClusterConfig) : String → List ClusterConfig :=
  workerSets.foldl (fun m ws =>
    ws.Workers.foldl (fun m' worker =>
      fun n =>
        if n = ws.Name then m' n ++ [(workerByName worker.Name).getD emptyClusterConfig]
        else m' n) m)
    (fun _ => [])

/-- The worker clusters the derivation associates with one WorkerSet name. -/
def workersForWS (workerSets : List WorkerSet) (expandedWorkers : List ClusterConfig)
    (wsName : String) : List ClusterConfig :=
  buildWorkersByWS workerSets (buildWorkerByName expandedWorkers) wsName

/-- Mirrors `DeriveManagementKueueConfig` (`*KueueConfig` modelled as
`Option KueueConfig`). -/
def DeriveManagementKueueConfig (workerSets : List WorkerSet)
    (expandedWorkers : List ClusterConfig)
    (managementKueueConfig : Option KueueConfig) : Option KueueConfig :=
  if workerSets = [] then managementKueueConfig
  else
    let workersByWS := buildWorkersByWS workerSets (buildWorkerByName expandedWorkers)
    let derivedFlavors := deriveManagementResourceFlavors workerSets
    let derivedCQs := deriveManagementClusterQueues workerSets workersByWS
    let derivedLQs := deriveManagementLocalQueues workerSets
    match managementKueueConfig with
    | none =>
      some { Cohorts := [], PriorityClasses := [],
             ResourceFlavors := derivedFlavors,
             ClusterQueues := derivedCQs,
             LocalQueues := derivedLQs }
    | some m =>
      some { Cohorts := m.Cohorts, PriorityClasses := m.PriorityClasses,
             ResourceFlavors := derivedFlavors ++ m.ResourceFlavors,
             ClusterQueues := derivedCQs ++ m.ClusterQueues,
             LocalQueues := derivedLQs ++ m.LocalQueues }

/-! ### Structural validator (validate.go)

Errors are modelled as structured values carrying the identifying data the
Go `fmt.Errorf` calls interpolate; one constructor per error site.
`map[string]bool` presence sets are modelled as name lists with
`contains`. Go iterates two maps in random order (a pool's resource map,
and `poolRequiredResources`); this embedding iterates in declaration
order, which affects only which of several simultaneous errors is
reported, not whether one is. -/

inductive PoolErr where
  | countNotPositive
  | noResources
  | invalidQuantity (res : String)
  | invalidTaintEffect (idx : Nat) (effect : String)
  deriving DecidableEq, Repr

set_option maxHeartbeats 1600000 in
inductive VError where
  | unsupportedAPIVersion (got : String)
  | unsupportedKind (got : String)
  | metadataNameRequired
  | noClustersOrWorkerSets
  | clusterNameRequired (i : Nat)
  | invalidRole (i : Nat) (name role : String)
  | clusterNoNodePools (i : Nat) (name : String)
  | nodePoolNameRequired (i j : Nat) (cluster : String)
  | nodePoolInvalid (i j : Nat) (cluster pool : String) (e : PoolErr)
  | cohortNameRequired (i : Nat) (cluster : String) (k : Nat)
  | duplicateCohortName (i : Nat) (cluster : String) (k : Nat) (name : String)
  | unknownParentCohort (i : Nat) (cluster : String) (k : Nat) (name parent : String)
  | resourceFlavorNameRequired (i : Nat) (cluster : String)
  | cqNameRequired (i : Nat) (cluster : String) (k : Nat)
  | cqUnknownCohort (i : Nat) (cluster : String) (k : Nat) (name cohort : String)
  | cqNoResourceGroups (i : Nat) (cluster : String) (k : Nat) (name : String)
  | cqUnknownResourceFlavor (i : Nat) (cluster : String) (cqIdx rgIdx flIdx : Nat) (name flavor : String)
  | cqInvalidNominalQuota (i : Nat) (cluster : String) (cqIdx rgIdx flIdx resIdx : Nat) (name : String)
  | lqNameRequired (i : Nat) (cluster : String) (k : Nat)
  | lqNamespaceRequired (i : Nat) (cluster : String) (k : Nat) (name : String)
  | lqClusterQueueRequired (i : Nat) (cluster : String) (k : Nat) (name : String)
  | lqUnknownClusterQueue (i : Nat) (cluster : String) (k : Nat) (name cq : String)
  | wsNameRequired (i : Nat)
  | duplicateWorkerSetName (i : Nat) (name : String)
  | wsNoResourceFlavors (i : Nat) (name : String)
  | wsNoClusterQueues (i : Nat) (name : String)
  | wsNoWorkers (i : Nat) (name : String)
  | wsFlavorNameRequired (i j : Nat) (ws : String)
  | wsFlavorNoNodePoolRef (i j : Nat) (ws flavor : String)
  | wsCQNameRequired (i j : Nat) (ws : String)
  | wsCQNoResourceGroups (i j : Nat) (ws cq : String)
  | wsRGNoCoveredResources (i j k : Nat) (ws cq : String)
  | wsRGUnknownFlavor (i j k l : Nat) (ws cq flavor : String)
  | wsLQNameRequired (i j : Nat) (ws : String)
  | wsLQNamespaceRequired (i j : Nat) (ws lq : String)
  | wsLQClusterQueueRequired (i j : Nat) (ws lq : String)
  | wsLQUnknownClusterQueue (i j : Nat) (ws lq cq : String)
  | workerNameRequired (i j : Nat) (ws : String)
  | workerNameConflictsCluster (i j : Nat) (ws worker : String)
  | duplicateWorkerName (i j : Nat) (ws worker : String)
  | workerNoNodePools (i j : Nat) (ws worker : String)
  | workerPoolNameRequired (i j k : Nat) (ws worker : String)
  | workerPoolInvalid (i j k : Nat) (ws worker pool : String) (e : PoolErr)
  | workerMissingNodePoolRef (i j : Nat) (ws worker ref flavor : String)
  | workerMissingCoveredResource (i j : Nat) (ws worker pool res : String)
  deriving DecidableEq, Repr

def emptyNodePool : NodePool := ⟨"", 0, [], [], []⟩

def checkPoolResources : List (String × String) → Option PoolErr
  | [] => none
  | (resName, quantity) :: rest =>
    if (ParseQuantity quantity).isNone then some (.invalidQuantity resName)
    else checkPoolResources rest

def checkTaints (k : Nat) : List Taint → Option PoolErr
  | [] => none
  | t :: rest =>
    if t.Effect ≠ "NoSchedule" ∧ t.Effect ≠ "PreferNoSchedule" ∧ t.Effect ≠ "NoExecute" then
      some (.invalidTaintEffect k t.Effect)
    else checkTaints (k + 1) rest

def validateNodePoolContents (p : NodePool) : Option PoolErr :=
  if p.Count ≤ 0 then some .countNotPositive
  else if p.Resources = [] then some .noResources
  else
    match checkPoolResources p.Resources with
    | some e => some e
    | none => checkTaints 0 p.Taints

def validateNodePool (p : NodePool) (clusterIndex poolIndex : Nat)
    (clusterName : String) : Option VError :=
  if p.Name = "" then some (.nodePoolNameRequired clusterIndex poolIndex clusterName)
  else
    match validateNodePoolContents p with
    | some e => some (.nodePoolInvalid clusterIndex poolIndex clusterName p.Name e)
    | none => none

def checkCohortNames (ci : Nat) (cn : String) : Nat → List String → List Cohort → Option VError
  | _, _, [] => none
  | k, seen, c :: rest =>
    if c.Name = "" then some (.cohortNameRequired ci cn k)
    else if seen.contains c.Name then some (.duplicateCohortName ci cn k c.Name)
    else checkCohortNames ci cn (k + 1) (c.Name :: seen) rest

def checkCohortParents (ci : Nat) (cn : String) (names : List String) :
    Nat → List Cohort → Option VError
  | _, [] => none
  | k, c :: rest =>
    if c.ParentName ≠ "" ∧ ¬ names.contains c.ParentName then
      some (.unknownParentCohort ci cn k c.Name c.ParentName)
    else checkCohortParents ci cn names (k + 1) rest

def validateCohorts (cohorts : List Cohort) (ci : Nat) (cn : String) : Option VError :=
  if cohorts = [] then none
  else
    match checkCohortNames ci cn 0 [] cohorts with
    | some e => some e
    | none => checkCohortParents ci cn (cohorts.map (·.Name)) 0 cohorts

def checkResourceFlavorNames (ci : Nat) (cn : String) : List ResourceFlavor → Option VError
  | [] => none
  | rf :: rest =>
    if rf.Name = "" then some (.resourceFlavorNameRequired ci cn)
    else checkResourceFlavorNames ci cn rest

def checkCQResources (ci : Nat) (cn : String) (cqIdx rgIdx flIdx : Nat) (cqName : String) :
    Nat → List Resource → Option VError
  | _, [] => none
  | r, res :: rest =>
    if (ParseQuantity res.NominalQuota).isNone then
      some (.cqInvalidNominalQuota ci cn cqIdx rgIdx flIdx r cqName)
    else checkCQResources ci cn cqIdx rgIdx flIdx cqName (r + 1) rest

def checkCQFlavors (ci : Nat) (cn : String) (cqIdx rgIdx : Nat) (cqName : String)
    (flavorNames : List String) : Nat → List FlavorQuotas → Option VError
  | _, [] => none
  | flIdx, fq :: rest =>
    if ¬ flavorNames.contains fq.Name then
      some (.cqUnknownResourceFlavor ci cn cqIdx rgIdx flIdx cqName fq.Name)
    else
      match checkCQResources ci cn cqIdx rgIdx flIdx cqName 0 fq.Resources with
      | some e => some e
      | none => checkCQFlavors ci cn cqIdx rgIdx cqName flavorNames (flIdx + 1) rest

def checkCQRGs (ci : Nat) (cn : String) (cqIdx : Nat) (cqName : String)
    (flavorNames : List String) : Nat → List ResourceGroup → Option VError
  | _, [] => none
  | rgIdx, rg :: rest =>
    match checkCQFlavors ci cn cqIdx rgIdx cqName flavorNames 0 rg.Flavors with
    | some e => some e
    | none => checkCQRGs ci cn cqIdx cqName flavorNames (rgIdx + 1) rest

def checkCQ (ci : Nat) (cn : String) (cohortNames flavorNames : List String)
    (cqIdx : Nat) (cq : ClusterQueue) : Option VError :=
  if cq.Name = "" then some (.cqNameRequired ci cn cqIdx)
  else if cq.Cohort ≠ "" ∧ ¬ cohortNames.contains cq.Cohort then
    some (.cqUnknownCohort ci cn cqIdx cq.Name cq.Cohort)
  else if cq.ResourceGroups = [] then some (.cqNoResourceGroups ci cn cqIdx cq.Name)
  else checkCQRGs ci cn cqIdx cq.Name flavorNames 0 cq.ResourceGroups

def checkCQList (ci : Nat) (cn : String) (cohortNames flavorNames : List String) :
    Nat → List ClusterQueue → Option VError
  | _, [] => none
  | k, cq :: rest =>
    match checkCQ ci cn cohortNames flavorNames k cq with
    | some e => some e
    | none => checkCQList ci cn cohortNames flavorNames (k + 1) rest

def checkLQList (ci : Nat) (cn : String) (cqNames : List String) :
    Nat → List LocalQueue → Option VError
  | _, [] => none
  | k, lq :: rest =>
    if lq.Name = "" then some (.lqNameRequired ci cn k)
    else if lq.Namespace = "" then some (.lqNamespaceRequired ci cn k lq.Name)
    else if lq.ClusterQueue = "" then some (.lqClusterQueueRequired ci cn k lq.Name)
    else if ¬ cqNames.contains lq.ClusterQueue then
      some (.lqUnknownClusterQueue ci cn k lq.Name lq.ClusterQueue)
    else checkLQList ci cn cqNames (k + 1) rest

/-- Mirrors `validateKueueConfig`. The name sets consumed after a loop are
exactly the complete name lists, since the loops building them either
complete or short-circuit the whole validation. -/
def validateKueueConfig (k : KueueConfig) (ci : Nat) (cn : String) : Option VError :=
  match validateCohorts k.Cohorts ci cn with
  | some e => some e
  | none =>
    match checkResourceFlavorNames ci cn k.ResourceFlavors with
    | some e => some e
    | none =>
      match checkCQList ci cn (k.Cohorts.map (·.Name)) (k.ResourceFlavors.map (·.Name))
          0 k.ClusterQueues with
      | some e => some e
      | none => checkLQList ci cn (k.ClusterQueues.map (·.Name)) 0 k.LocalQueues

def checkNodePools (ci : Nat) (cn : String) : Nat → List NodePool → Option VError
  | _, [] => none
  | j, p :: rest =>
    match validateNodePool p ci j cn with
    | some e => some e
    | none => checkNodePools ci cn (j + 1) rest

def validateCluster (c : ClusterConfig) (i : Nat) : Option VError :=
  if c.Name = "" then some (.clusterNameRequired i)
  else if c.Role ≠ RoleStandalone ∧ c.Role ≠ RoleManagement ∧ c.Role ≠ RoleWorker then
    some (.invalidRole i c.Name c.Role)
  else if c.NodePools = [] then some (.clusterNoNodePools i c.Name)
  else
    match checkNodePools i c.Name 0 c.NodePools with
    | some e => some e
    | none =>
      match c.Kueue with
      | some kc => validateKueueConfig kc i c.Name
      | none => none

def checkWSFlavors (i : Nat) (wsName : String) : Nat → List WorkerSetFlavor → Option VError
  | _, [] => none
  | j, f :: rest =>
    if f.Name = "" then some (.wsFlavorNameRequired i j wsName)
    else if f.NodePoolRef = "" then some (.wsFlavorNoNodePoolRef i j wsName f.Name)
    else checkWSFlavors i wsName (j + 1) rest

def checkWSRGFlavorRefs (i j k : Nat) (wsName cqName : String)
    (flavorPools : String → Option String) : Nat → List WorkerSetFlavorRef → Option VError
  | _, [] => none
  | l, fr :: rest =>
    if (flavorPools fr.Name).isNone then some (.wsRGUnknownFlavor i j k l wsName cqName fr.Name)
    else checkWSRGFlavorRefs i j k wsName cqName flavorPools (l + 1) rest

def checkWSRGs (i j : Nat) (wsName cqName : String)
    (flavorPools : String → Option String) : Nat → List WorkerSetResourceGroup → Option VError
  | _, [] => none
  | k, rg :: rest =>
    if rg.CoveredResources = [] then some (.wsRGNoCoveredResources i j k wsName cqName)
    else
      match checkWSRGFlavorRefs i j k wsName cqName flavorPools 0 rg.Flavors with
      | some e => some e
      | none => checkWSRGs i j wsName cqName flavorPools (k + 1) rest

def checkWSCQs (i : Nat) (wsName : String) (flavorPools : String → Option String) :
    Nat → List WorkerSetClusterQueue → Option VError
  | _, [] => none
  | j, cq :: rest =>
    if cq.Name = "" then some (.wsCQNameRequired i j wsName)
    else if cq.ResourceGroups = [] then some (.wsCQNoResourceGroups i j wsName cq.Name)
    else
      match checkWSRGs i j wsName cq.Name flavorPools 0 cq.ResourceGroups with
      | some e => some e
      | none => checkWSCQs i wsName flavorPools (j + 1) rest

def checkWSLQs (i : Nat) (wsName : String) (cqNames : List String) :
    Nat → List LocalQueue → Option VError
  | _, [] => none
  | j, lq :: rest =>
    if lq.Name = "" then some (.wsLQNameRequired i j wsName)
    else if lq.Namespace = "" then some (.wsLQNamespaceRequired i j wsName lq.Name)
    else if lq.ClusterQueue = "" then some (.wsLQClusterQueueRequired i j wsName lq.Name)
    else if ¬ cqNames.contains lq.ClusterQueue then
      some (.wsLQUnknownClusterQueue i j wsName lq.Name lq.ClusterQueue)
    else checkWSLQs i wsName cqNames (j + 1) rest

def checkWorkerPools (i j : Nat) (ws worker : String) : Nat → List NodePool → Option VError
  | _, [] => none
  | k, p :: rest =>
    if p.Name = "" then some (.workerPoolNameRequired i j k ws worker)
    else
      match validateNodePoolContents p with
      | some e => some (.workerPoolInvalid i j k ws worker p.Name e)
      | none => checkWorkerPools i j ws worker (k + 1) rest

def checkNodePoolRefs (i j : Nat) (ws worker : String)
    (pools : String → Option NodePool) : List WorkerSetFlavor → Option VError
  | [] => none
  | f :: rest =>
    if (pools f.NodePoolRef).isNone then
      some (.workerMissingNodePoolRef i j ws worker f.NodePoolRef f.Name)
    else checkNodePoolRefs i j ws worker pools rest

def checkCoveredList (i j : Nat) (ws worker poolName : String) (pool : NodePool) :
    List String → Option VError
  | [] => none
  | cr :: rest =>
    if (pool.Resources.lookup cr).isNone then
      some (.workerMissingCoveredResource i j ws worker poolName cr)
    else checkCoveredList i j ws worker poolName pool rest

def checkCoveredForRefs (i j : Nat) (ws worker : String)
    (flavorPools : String → Option String) (pools : String → Option NodePool)
    (covered : List String) : List WorkerSetFlavorRef → Option VError
  | [] => none
  | fr :: rest =>
    let poolName := (flavorPools fr.Name).getD ""
    let pool := (pools poolName).getD emptyNodePool
    match checkCoveredList i j ws worker poolName pool covered with
    | some e => some e
    | none => checkCoveredForRefs i j ws worker flavorPools pools covered rest

def checkRequiredRGs (i j : Nat) (ws worker : String)
    (flavorPools : String → Option String) (pools : String → Option NodePool) :
    List WorkerSetResourceGroup → Option VError
  | [] => none
  | rg :: rest =>
    match checkCoveredForRefs i j ws worker flavorPools pools rg.CoveredResources rg.Flavors with
    | some e => some e
    | none => checkRequiredRGs i j ws worker flavorPools pools rest

/-- The `poolRequiredResources` cross-check: every covered resource
required by any of the WorkerSet's ClusterQueues must be present in the
pool its flavor's `nodePoolRef` points to. The Go code first collects a
map of required (pool, resource) pairs and then iterates it in random map
order; this checks the same set of pairs in declaration order. -/
def checkRequiredResources (i j : Nat) (ws worker : String)
    (flavorPools : String → Option String) (pools : String → Option NodePool) :
    List WorkerSetClusterQueue → Option VError
  | [] => none
  | cq :: rest =>
    match checkRequiredRGs i j ws worker flavorPools pools cq.ResourceGroups with
    | some e => some e
    | none => checkRequiredResources i j ws worker flavorPools pools rest

def checkWorkers (i : Nat) (ws : WorkerSet) (clusterNames : List String)
    (flavorPools : String → Option String) :
    Nat → List String → List Worker → Except VError (List String)
  | _, workerNames, [] => .ok workerNames
  | j, workerNames, w :: rest =>
    if w.Name = "" then .error (.workerNameRequired i j ws.Name)
    else if clusterNames.contains w.Name then
      .error (.workerNameConflictsCluster i j ws.Name w.Name)
    else if workerNames.contains w.Name then
      .error (.duplicateWorkerName i j ws.Name w.Name)
    else if w.NodePools = [] then .error (.workerNoNodePools i j ws.Name w.Name)
    else
      match checkWorkerPools i j ws.Name w.Name 0 w.NodePools with
      | some e => .error e
      | none =>
        let pools := buildPools w.NodePools
        match checkNodePoolRefs i j ws.Name w.Name pools ws.ResourceFlavors with
        | some e => .error e
        | none =>
          match checkRequiredResources i j ws.Name w.Name flavorPools pools ws.ClusterQueues with
          | some e => .error e
          | none =>
            checkWorkers i ws clusterNames flavorPools (j + 1) (w.Name :: workerNames) rest

def validateWorkerSetsLoop (clusterNames : List String) :
    Nat → List String → List String → List WorkerSet → Option VError
  | _, _, _, [] => none
  | i, wsNames, workerNames, ws :: rest =>
    if ws.Name = "" then some (.wsNameRequired i)
    else if wsNames.contains ws.Name then some (.duplicateWorkerSetName i ws.Name)
    else if ws.ResourceFlavors = [] then some (.wsNoResourceFlavors i ws.Name)
    else if ws.ClusterQueues = [] then some (.wsNoClusterQueues i ws.Name)
    else if ws.Workers = [] then some (.wsNoWorkers i ws.Name)
    else
      match checkWSFlavors i ws.Name 0 ws.ResourceFlavors with
      | some e => some e
      | none =>
        let flavorPools := buildFlavorPools ws.ResourceFlavors
        match checkWSCQs i ws.Name flavorPools 0 ws.ClusterQueues with
        | some e => some e
        | none =>
          match checkWSLQs i ws.Name (ws.ClusterQueues.map (·.Name)) 0 ws.LocalQueues with
          | some e => some e
          | none =>
            match checkWorkers i ws clusterNames flavorPools 0 workerNames ws.Workers with
            | .error e => some e
            | .ok workerNames' =>
              validateWorkerSetsLoop clusterNames (i + 1) (ws.Name :: wsNames) workerNames' rest

def validateWorkerSets (workerSets : List WorkerSet) (clusterNames : List String) : Option VError :=
  validateWorkerSetsLoop clusterNames 0 [] [] workerSets

def validateClustersLoop : Nat → List ClusterConfig → Option VError
  | _, [] => none
  | i, c :: rest =>
    match validateCluster c i with
    | some e => some e
    | none => validateClustersLoop (i + 1) rest

/-- Mirrors `ValidateTopology`. -/
def ValidateTopology (t : Topology) : Option VError :=
  if t.APIVersion ≠ APIVersionConst then some (.unsupportedAPIVersion t.APIVersion)
  else if t.Kind ≠ KindTopology then some (.unsupportedKind t.Kind)
  else if t.Metadata.Name = "" then some .metadataNameRequired
  else if t.Spec.Clusters = [] ∧ t.Spec.WorkerSets = [] then some .noClustersOrWorkerSets
  else
    match validateClustersLoop 0 t.Spec.Clusters with
    | some e => some e
    | none => validateWorkerSets t.Spec.WorkerSets (t.Spec.Clusters.map (·.Name))

/-! ### Concrete inputs for the claims about validation gaps -/

/-- The repository's own test input "invalid: workerSet without management
cluster" (`TestValidateMultiKueueTopology`): one WorkerSet, one
standalone-role cluster, zero management-role clusters. -/
def c3topoNoManagement : Topology :=
  ⟨"kueue-bench.io/v1alpha1", "Topology", ⟨"test", []⟩,
   ⟨none, none,
    [⟨"standalone", "standalone", "", [⟨"pool1", 1, [("cpu", "1")], [], []⟩], none⟩],
    [⟨"workers", [⟨"default", "pool"⟩],
      [⟨"cq", "", none, none, [⟨["cpu"], [⟨"default"⟩]⟩], [], none⟩],
      [], [⟨"worker-1", [⟨"pool", 1, [("cpu", "1")], [], []⟩]⟩]⟩]⟩⟩

/-- Claim C3: the claim (backed by the repository's schema reference and by
`TestValidateMultiKueueTopology`) says a topology with a WorkerSet and zero
management-role clusters is rejected with an error naming the count found.
The source `ValidateTopology` contains no management-cluster cardinality
check at all: on exactly the test input expecting the error
"workerSets require exactly one cluster with role 'management', found 0",
validation succeeds. -/
theorem claim_c3_missing_management_check :
    c3topoNoManagement.Spec.WorkerSets ≠ [] ∧
    (c3topoNoManagement.Spec.Clusters.filter (fun c => c.Role == RoleManagement)).length = 0 ∧
    ValidateTopology c3topoNoManagement = none := by decide

def c4wsA : WorkerSet := ⟨"ws-a", [⟨"shared-flavor", "pool-a"⟩], [], [], []⟩

def c4wsB : WorkerSet := ⟨"ws-b", [⟨"shared-flavor", "pool-b"⟩], [], [], []⟩

/-- Claim C4, counterexample: two distinct WorkerSets declaring the same
flavor name contribute ONE derived ResourceFlavor, not two — the `seen`
set in `deriveManagementResourceFlavors` is shared across the whole
WorkerSet loop, so deduplication does happen across WorkerSets. -/
theorem claim_c4_counterexample :
    deriveManagementResourceFlavors [c4wsA, c4wsB] = [⟨"shared-flavor", [], []⟩] ∧
    deriveManagementResourceFlavors [c4wsA, c4wsB] ≠
      [⟨"shared-flavor", [], []⟩, ⟨"shared-flavor", [], []⟩] := by decide

def c5ws : WorkerSet := ⟨"ws", [], [], [⟨"q", "ns", "cq"⟩], []⟩

def c5user : KueueConfig := ⟨[], [], [], [⟨"q", "ns", "cq"⟩], []⟩

/-- Claim C5, counterexample: a LocalQueue declared both by a WorkerSet and
by the user-authored management config appears TWICE in the merged list —
`DeriveManagementKueueConfig` appends the user's LocalQueues after the
derived ones without any deduplication against them. -/
theorem claim_c5_counterexample :
    (DeriveManagementKueueConfig [c5ws] [] (some c5user)).map KueueConfig.LocalQueues =
      some [⟨"q", "ns", "cq"⟩, ⟨"q", "ns", "cq"⟩] ∧
    (DeriveManagementKueueConfig [c5ws] [] (some c5user)).map KueueConfig.LocalQueues ≠
      some [⟨"q", "ns", "cq"⟩] := by decide

def c8topoBadLimit : Topology :=
  ⟨"kueue-bench.io/v1alpha1", "Topology", ⟨"t", []⟩,
   ⟨none, none,
    [⟨"c1", "standalone", "", [⟨"p", 1, [("cpu", "1")], [], []⟩],
      some ⟨[], [⟨"f", [], []⟩],
        [⟨"cq", "", none, none,
          [⟨["cpu"], [⟨"f", [⟨"cpu", "1", "not-a-quantity", "alsobad"⟩]⟩]⟩], [], none⟩],
        [], []⟩⟩],
    []⟩⟩

/-- Claim C8, counterexample: a ClusterQueue resource whose borrowing and
lending limits do not parse as quantities passes `ValidateTopology` —
validation parses only `NominalQuota` and never reads the limit fields. -/
theorem claim_c8_counterexample :
    (ParseQuantity "not-a-quantity").isNone ∧ (ParseQuantity "alsobad").isNone ∧
    ValidateTopology c8topoBadLimit = none := by decide

def c9cq (q : String) : ClusterQueue :=
  ⟨"cq", "", none, none, [⟨["cpu"], [⟨"f", [⟨"cpu", q, "", ""⟩]⟩]⟩], [], none⟩

def c9topoDupCQ : Topology :=
  ⟨"kueue-bench.io/v1alpha1", "Topology", ⟨"t", []⟩,
   ⟨none, none,
    [⟨"c1", "standalone", "", [⟨"p", 1, [("cpu", "1")], [], []⟩],
      some ⟨[], [⟨"f", [], []⟩], [c9cq "1", c9cq "2"], [], []⟩⟩],
    []⟩⟩

/-- Claim C9, counterexample: a cluster KueueConfig declaring two
ClusterQueues with the same name passes `ValidateTopology` — the
`clusterQueueNames` map is populated but never consulted for duplicates. -/
theorem claim_c9_counterexample :
    (c9cq "1").Name = (c9cq "2").Name ∧
    ValidateTopology c9topoDupCQ = none := by decide

/-! ### Structure of the derived ClusterQueue list -/

theorem foldl_snoc_eq_append (g : β → γ) :
    ∀ (l : List β) (acc : List γ),
      l.foldl (fun cs b => cs ++ [g b]) acc = acc ++ l.map g := by
  intro l
  induction l with
  | nil => intro acc; simp
  | cons b bs ih => intro acc; simp [List.foldl_cons, ih]

theorem deriveManagementClusterQueues_eq_flatMap (workerSets : List WorkerSet)
    (m : String → List ClusterConfig) :
    deriveManagementClusterQueues workerSets m =
      workerSets.flatMap (fun ws => ws.ClusterQueues.map (mgmtCQ m ws)) := by
  have h : ∀ (l : List WorkerSet) (acc : List ClusterQueue),
      l.foldl (fun cqs ws =>
        ws.ClusterQueues.foldl (fun cqs' wsCQ => cqs' ++ [mgmtCQ m ws wsCQ]) cqs) acc
      = acc ++ l.flatMap (fun ws => ws.ClusterQueues.map (mgmtCQ m ws)) := by
    intro l
    induction l with
    | nil => intro acc; simp
    | cons ws rest ih =>
      intro acc
      rw [List.foldl_cons, foldl_snoc_eq_append (mgmtCQ m ws) ws.ClusterQueues acc, ih]
      simp
  simpa [deriveManagementClusterQueues] using h workerSets []

/-- The per-template correspondence claimed by C6. -/
def mgmtCQMatches (ws : WorkerSet) (t : WorkerSetClusterQueue) (cq : ClusterQueue) : Prop :=
  cq.Name = t.Name ∧ cq.Cohort = t.Cohort ∧ cq.Preemption = t.Preemption ∧
  cq.FairSharing = t.FairSharing ∧ cq.NamespaceSelector = t.NamespaceSelector ∧
  cq.AdmissionChecks = ws.Name :: t.AdmissionChecks

theorem mgmtCQ_matches (m : String → List ClusterConfig) (ws : WorkerSet)
    (t : WorkerSetClusterQueue) : mgmtCQMatches ws t (mgmtCQ m ws t) := by
  by_cases h : t.AdmissionChecks = [] <;>
    simp [mgmtCQMatches, mgmtCQ, h]

/-- Claim C6: every ClusterQueue derived for the management cluster copies
its template's name, cohort, preemption, fair-sharing and
namespace-selector, and its admission-check list is the WorkerSet name
followed by the template's declared checks — the WorkerSet name first,
whether or not the template declared any; conversely every template of
every WorkerSet gives rise to such a derived ClusterQueue. -/
theorem claim_c6_admission_check_prepending
    (workerSets : List WorkerSet) (m : String → List ClusterConfig) :
    (∀ cq ∈ deriveManagementClusterQueues workerSets m,
      ∃ ws, ws ∈ workerSets ∧ ∃ t, t ∈ ws.ClusterQueues ∧ mgmtCQMatches ws t cq) ∧
    (∀ ws ∈ workerSets, ∀ t ∈ ws.ClusterQueues,
      ∃ cq, cq ∈ deriveManagementClusterQueues workerSets m ∧ mgmtCQMatches ws t cq) := by
  rw [deriveManagementClusterQueues_eq_flatMap]
  constructor
  · intro cq hcq
    rw [List.mem_flatMap] at hcq
    obtain ⟨ws, hws, hmem⟩ := hcq
    rw [List.mem_map] at hmem
    obtain ⟨t, ht, rfl⟩ := hmem
    exact ⟨ws, hws, t, ht, mgmtCQ_matches m ws t⟩
  · intro ws hws t ht
    refine ⟨mgmtCQ m ws t, ?_, mgmtCQ_matches m ws t⟩
    rw [List.mem_flatMap]
    exact ⟨ws, hws, List.mem_map_of_mem (mgmtCQ m ws) ht⟩

def c6ws : WorkerSet :=
  ⟨"gpu-ws", [⟨"f", "p"⟩],
   [⟨"team-cq", "", none, none, [⟨["cpu"], [⟨"f"⟩]⟩], ["extra-check"], none⟩],
   [], []⟩

theorem claim_c6_admission_check_prepending_witness :
    ∃ cq, cq ∈ deriveManagementClusterQueues [c6ws] (fun _ => []) ∧
      mgmtCQMatches c6ws (⟨"team-cq", "", none, none, [⟨["cpu"], [⟨"f"⟩]⟩], ["extra-check"], none⟩) cq :=
  (claim_c6_admission_check_prepending [c6ws] (fun _ => [])).2 c6ws (by simp)
    (⟨"team-cq", "", none, none, [⟨["cpu"], [⟨"f"⟩]⟩], ["extra-check"], none⟩) (by simp [c6ws])

/-! ### Shape and order of the expansion output -/

/-- What claim C7 asserts of the concrete cluster produced for one
(WorkerSet, Worker) pair. -/
def expandedMatches (p : WorkerSet × Worker) (c : ClusterConfig) : Prop :=
  c.Name = p.2.Name ∧ c.Role = RoleWorker ∧ c.NodePools = p.2.NodePools ∧
  ∃ k, c.Kueue = some k ∧ k.LocalQueues = p.1.LocalQueues

theorem expandWorker_matches (ws : WorkerSet) (w : Worker)
    (fp : String → Option String) (c : ClusterConfig)
    (h : expandWorker ws w fp = some c) : expandedMatches (ws, w) c := by
  simp only [expandWorker, Option.bind_eq_bind, Option.bind_eq_some, Option.pure_def,
    Option.some.injEq] at h
  obtain ⟨rfs, _, k, _, rfl⟩ := h
  exact ⟨rfl, rfl, rfl, _, rfl, rfl⟩

theorem expandWorkers_spec (ws : WorkerSet) (fp : String → Option String) :
    ∀ (workers : List Worker) (cs : List ClusterConfig),
      expandWorkers ws fp workers = some cs →
      List.Forall₂ (fun w c => expandedMatches (ws, w) c) workers cs := by
  intro workers
  induction workers with
  | nil =>
    intro cs h
    simp only [expandWorkers] at h
    obtain rfl := Option.some.inj h
    exact List.Forall₂.nil
  | cons w rest ih =>
    intro cs h
    simp only [expandWorkers, Option.bind_eq_bind, Option.bind_eq_some, Option.pure_def,
      Option.some.injEq] at h
    obtain ⟨c, hc, tail, htail, rfl⟩ := h
    exact List.Forall₂.cons (expandWorker_matches ws w fp c hc) (ih tail htail)

/-- Claim C7: a successful `ExpandWorkerSets` returns exactly one concrete
cluster per (WorkerSet, Worker) pair, ordered by WorkerSet order then
Worker order, each with the Worker's name, role `worker`, the Worker's
NodePools unchanged, and a KueueConfig whose LocalQueues are the
WorkerSet's shared list unchanged. -/
theorem claim_c7_expand_order_and_shape :
    ∀ (workerSets : List WorkerSet) (clusters : List ClusterConfig),
      ExpandWorkerSets workerSets = some clusters →
      List.Forall₂ expandedMatches
        (workerSets.flatMap (fun ws => ws.Workers.map (fun w => (ws, w)))) clusters := by
  intro workerSets
  induction workerSets with
  | nil =>
    intro clusters h
    simp only [ExpandWorkerSets] at h
    obtain rfl := Option.some.inj h
    exact List.Forall₂.nil
  | cons ws rest ih =>
    intro clusters h
    simp only [ExpandWorkerSets, Option.bind_eq_bind, Option.bind_eq_some, Option.pure_def,
      Option.some.injEq] at h
    obtain ⟨cs, hcs, more, hmore, rfl⟩ := h
    rw [List.flatMap_cons]
    refine List.rel_append ?_ (ih more hmore)
    rw [List.forall₂_map_left_iff]
    exact expandWorkers_spec ws (buildFlavorPools ws.ResourceFlavors) ws.Workers cs hcs

def c7ws : WorkerSet :=
  ⟨"ws1", [⟨"f", "p"⟩],
   [⟨"cq", "", none, none, [⟨["cpu"], [⟨"f"⟩]⟩], [], none⟩],
   [⟨"lq", "ns", "cq"⟩],
   [⟨"w1", [⟨"p", 2, [("cpu", "3")], [], []⟩]⟩]⟩

theorem claim_c7_expand_order_and_shape_witness :
    List.Forall₂ expandedMatches
      ([c7ws].flatMap (fun ws => ws.Workers.map (fun w => (ws, w))))
      [⟨"w1", "worker", "", [⟨"p", 2, [("cpu", "3")], [], []⟩],
        some ⟨[], [⟨"f", [], []⟩],
          [⟨"cq", "", none, none, [⟨["cpu"], [⟨"f", [⟨"cpu", "6", "", ""⟩]⟩]⟩], [], none⟩],
          [⟨"lq", "ns", "cq"⟩], []⟩⟩] :=
  claim_c7_expand_order_and_shape [c7ws] _ (by decide)

/-! ### Totality of the derivation and the no-matching-worker case -/

theorem buildWorkerByName_mem_aux :
    ∀ (l : List ClusterConfig) (m0 : String → Option ClusterConfig) (n : String)
      (w : ClusterConfig),
      (l.foldl (fun m w' => fun n' => if n' = w'.Name then some w' else m n') m0) n = some w →
      w ∈ l ∨ m0 n = some w := by
  intro l
  induction l with
  | nil => intro m0 n w h; exact Or.inr h
  | cons x xs ih =>
    intro m0 n w h
    rcases ih _ n w h with hmem | hstep
    · exact Or.inl (List.mem_cons_of_mem x hmem)
    · by_cases hn : n = x.Name
      · subst hn
        simp only [if_true, eq_self_iff_true, if_pos, Option.some.injEq] at hstep
        subst hstep
        exact Or.inl (List.mem_cons_self x xs)
      · simp only [if_neg hn] at hstep
        exact Or.inr hstep

theorem buildWorkerByName_mem (l : List ClusterConfig) (n : String) (w : ClusterConfig)
    (h : buildWorkerByName l n = some w) : w ∈ l := by
  rcases buildWorkerByName_mem_aux l (fun _ => none) n w h with hmem | habs
  · exact hmem
  · exact absurd habs (by simp)

theorem buildWorkersByWS_mem {P : ClusterConfig → Prop}
    (wbn : String → Option ClusterConfig)
    (hwbn : ∀ n w, wbn n = some w → P w) (hP : P emptyClusterConfig) :
    ∀ (l : List WorkerSet) (m0 : String → List ClusterConfig),
      (∀ nm c, c ∈ m0 nm → P c) →
      ∀ nm c, c ∈ (l.foldl (fun m ws =>
        ws.Workers.foldl (fun m' worker =>
          fun n => if n = ws.Name then m' n ++ [(wbn worker.Name).getD emptyClusterConfig]
                   else m' n) m) m0) nm → P c := by
  intro l
  induction l with
  | nil => intro m0 hm0; exact hm0
  | cons ws rest ih =>
    intro m0 hm0
    refine ih _ ?_
    have hinner : ∀ (workers : List Worker) (m1 : String → List ClusterConfig),
        (∀ nm c, c ∈ m1 nm → P c) →
        ∀ nm c, c ∈ (workers.foldl (fun m' worker =>
          fun n => if n = ws.Name then m' n ++ [(wbn worker.Name).getD emptyClusterConfig]
                   else m' n) m1) nm → P c := by
      intro workers
      induction workers with
      | nil => intro m1 hm1; exact hm1
      | cons worker ws' ih' =>
        intro m1 hm1
        refine ih' _ ?_
        intro nm c hc
        by_cases hn : nm = ws.Name
        · subst hn
          simp only [if_true, eq_self_iff_true, if_pos, List.mem_append,
            List.mem_singleton] at hc
          rcases hc with hold | hnew
          · exact hm1 ws.Name c hold
          · subst hnew
            cases hlook : wbn worker.Name with
            | none => simpa [hlook] using hP
            | some w => simpa [hlook] using hwbn worker.Name w hlook
        · simp only [if_neg hn] at hc
          exact hm1 nm c hc
    exact hinner ws.Workers m0 hm0

theorem aggregateWorkerQuotas_eq_nil (cqName : String) (workers : List ClusterConfig)
    (h : ∀ w ∈ workers, findWorkerCQ cqName w = none) :
    aggregateWorkerQuotas cqName workers = [] := by
  have hfm : workers.filterMap (findWorkerCQ cqName) = [] := by
    rw [List.filterMap_eq_nil_iff]
    exact h
  simp [aggregateWorkerQuotas, hfm]

/-- The shape of the non-passthrough result of `DeriveManagementKueueConfig`:
derived collections first, the user-authored ones appended. -/
theorem DeriveManagementKueueConfig_eq_some (workerSets : List WorkerSet)
    (expandedWorkers : List ClusterConfig) (mgmt : Option KueueConfig)
    (hne : workerSets ≠ []) :
    DeriveManagementKueueConfig workerSets expandedWorkers mgmt = some
      { Cohorts := (mgmt.map (·.Cohorts)).getD [],
        PriorityClasses := (mgmt.map (·.PriorityClasses)).getD [],
        ResourceFlavors := deriveManagementResourceFlavors workerSets ++
          (mgmt.map (·.ResourceFlavors)).getD [],
        ClusterQueues := deriveManagementClusterQueues workerSets
          (buildWorkersByWS workerSets (buildWorkerByName expandedWorkers)) ++
          (mgmt.map (·.ClusterQueues)).getD [],
        LocalQueues := deriveManagementLocalQueues workerSets ++
          (mgmt.map (·.LocalQueues)).getD [] } := by
  cases mgmt <;> simp [DeriveManagementKueueConfig, hne]

/-- Panic-aware model of the aggregation path. `DeriveManagementKueueConfig`
has no error return, but it is not total: `resource.MustParse` panics on an
unparsable nominal quota, and the direct slice indexing
`workerCQ.ResourceGroups[rgIdx].Flavors[flavorIdx]` / `aggregated[i]`
panics out of range when a worker's matching ClusterQueue does not share
the first worker's shape. These aborts are modelled as `none`; the
`Checked` functions below refine the total model used under the
pre-validated-input hypotheses of the other claims. -/
def resourcesAtIdxChecked (wcq : ClusterQueue) (rgIdx flavorIdx : Nat) :
    Option (List Resource) := do
  let rg ← wcq.ResourceGroups[rgIdx]?
  let fq ← rg.Flavors[flavorIdx]?
  pure fq.Resources

/-- `addResources` with the two Go abort paths kept: a parse failure
(`MustParse` panic) and an `aggregated[i]` index past the accumulator's
length both yield `none`. -/
def addResourcesChecked : List Quantity → List Resource → Option (List Quantity)
  | acc, [] => some acc
  | [], _ :: _ => none
  | a :: rest, r :: rs => do
    let q ← ParseQuantity r.NominalQuota
    let tail ← addResourcesChecked rest rs
    pure (a.add q :: tail)

def aggFlavorChecked (workerCQs : List ClusterQueue) (rgIdx flavorIdx : Nat)
    (flavor : FlavorQuotas) : Option FlavorQuotas := do
  let aggregated ← workerCQs.foldlM
    (fun acc wcq => do
      let rs ← resourcesAtIdxChecked wcq rgIdx flavorIdx
      addResourcesChecked acc rs)
    (List.replicate flavor.Resources.length zeroQuantity)
  pure { Name := flavor.Name,
         Resources := List.zipWith
           (fun res agg => { Name := res.Name, NominalQuota := Quantity.toString agg,
                             BorrowingLimit := "", LendingLimit := "" })
           flavor.Resources aggregated }

def mapIdxFromChecked (f : Nat → α → Option β) : Nat → List α → Option (List β)
  | _, [] => some []
  | i, a :: as => do
    let b ← f i a
    let bs ← mapIdxFromChecked f (i + 1) as
    pure (b :: bs)

/-- `aggregateWorkerQuotas` with the abort paths kept. -/
def aggregateWorkerQuotasChecked (cqName : String) (workers : List ClusterConfig) :
    Option (List ResourceGroup) :=
  let workerCQs := workers.filterMap (findWorkerCQ cqName)
  match workerCQs with
  | [] => some []
  | templateCQ :: _ =>
    mapIdxFromChecked (fun rgIdx rg => do
      let flavors ← mapIdxFromChecked (fun flavorIdx flavor =>
        aggFlavorChecked workerCQs rgIdx flavorIdx flavor) 0 rg.Flavors
      pure { CoveredResources := rg.CoveredResources, Flavors := flavors })
      0 templateCQ.ResourceGroups

/-- The ClusterQueue derived for a template none of whose workers carry a
matching ClusterQueue: structural fields copied, empty ResourceGroups. -/
def mgmtCQEmpty (ws : WorkerSet) (wsCQ : WorkerSetClusterQueue) : ClusterQueue :=
  { Name := wsCQ.Name, Cohort := wsCQ.Cohort,
    NamespaceSelector := wsCQ.NamespaceSelector,
    Preemption := wsCQ.Preemption,
    ResourceGroups := [],
    AdmissionChecks := if wsCQ.AdmissionChecks = [] then [ws.Name]
      else ws.Name :: wsCQ.AdmissionChecks,
    FairSharing := wsCQ.FairSharing }

/-- `deriveManagementClusterQueues` with the abort paths kept. -/
def deriveManagementClusterQueuesChecked (workerSets : List WorkerSet)
    (workersByWS : String → List ClusterConfig) : Option (List ClusterQueue) :=
  workerSets.foldlM (fun cqs ws =>
    ws.ClusterQueues.foldlM (fun cqs' wsCQ => do
      let aggregatedRGs ← aggregateWorkerQuotasChecked wsCQ.Name (workersByWS ws.Name)
      pure (cqs' ++ [{ Name := wsCQ.Name, Cohort := wsCQ.Cohort,
                       NamespaceSelector := wsCQ.NamespaceSelector,
                       Preemption := wsCQ.Preemption,
                       ResourceGroups := aggregatedRGs,
                       AdmissionChecks := if wsCQ.AdmissionChecks = [] then [ws.Name]
                         else ws.Name :: wsCQ.AdmissionChecks,
                       FairSharing := wsCQ.FairSharing }])) cqs) []

/-- `DeriveManagementKueueConfig` with the abort paths kept: the outer
`none` is a Go panic; the inner option is the nil-able `*KueueConfig`
result (flavor and LocalQueue derivation cannot abort). -/
def DeriveManagementKueueConfigChecked (workerSets : List WorkerSet)
    (expandedWorkers : List ClusterConfig)
    (managementKueueConfig : Option KueueConfig) : Option (Option KueueConfig) :=
  if workerSets = [] then some managementKueueConfig
  else
    let workersByWS := buildWorkersByWS workerSets (buildWorkerByName expandedWorkers)
    match deriveManagementClusterQueuesChecked workerSets workersByWS with
    | none => none
    | some derivedCQs =>
      let derivedFlavors := deriveManagementResourceFlavors workerSets
      let derivedLQs := deriveManagementLocalQueues workerSets
      match managementKueueConfig with
      | none =>
        some (some { Cohorts := [], PriorityClasses := [],
                     ResourceFlavors := derivedFlavors,
                     ClusterQueues := derivedCQs,
                     LocalQueues := derivedLQs })
      | some m =>
        some (some { Cohorts := m.Cohorts, PriorityClasses := m.PriorityClasses,
                     ResourceFlavors := derivedFlavors ++ m.ResourceFlavors,
                     ClusterQueues := derivedCQs ++ m.ClusterQueues,
                     LocalQueues := derivedLQs ++ m.LocalQueues })

def c10ws : WorkerSet :=
  ⟨"ws1", [⟨"f", "p"⟩],
   [⟨"cq", "", none, none, [⟨["cpu"], [⟨"f"⟩]⟩], [], none⟩],
   [], [⟨"w1", [⟨"p", 1, [("cpu", "1")], [], []⟩]⟩]⟩

/-- An expanded worker for `c10ws` whose matching ClusterQueue carries an
unparsable nominal quota — `resource.MustParse` panics on it in Go. -/
def c10badWorker : ClusterConfig :=
  ⟨"w1", "worker", "", [],
   some ⟨[], [],
     [⟨"cq", "", none, none,
       [⟨["cpu"], [⟨"f", [⟨"cpu", "garbage", "", ""⟩]⟩]⟩], [], none⟩],
     [], []⟩⟩

/-- Claim C10, counterexample: `DeriveManagementKueueConfig` is NOT total.
With a non-empty WorkerSet list and an expanded worker whose matching
ClusterQueue carries the unparsable nominal quota "garbage", the Go
function panics in `aggregateWorkerQuotas` (`resource.MustParse`) and
produces nothing — in the panic-aware model the call aborts instead of
returning a config. -/
theorem claim_c10_counterexample :
    (ParseQuantity "garbage").isNone = true ∧
    (findWorkerCQ "cq" c10badWorker).isSome = true ∧
    DeriveManagementKueueConfigChecked [c10ws] [c10badWorker] none = none := by decide

theorem foldlM_cqs_all_empty (m : String → List ClusterConfig) (ws : WorkerSet) :
    ∀ (ts : List WorkerSetClusterQueue) (acc : List ClusterQueue),
      (∀ t ∈ ts, aggregateWorkerQuotasChecked t.Name (m ws.Name) = some []) →
      (ts.foldlM (fun cqs' wsCQ => do
        let aggregatedRGs ← aggregateWorkerQuotasChecked wsCQ.Name (m ws.Name)
        pure (cqs' ++ [{ Name := wsCQ.Name, Cohort := wsCQ.Cohort,
                         NamespaceSelector := wsCQ.NamespaceSelector,
                         Preemption := wsCQ.Preemption,
                         ResourceGroups := aggregatedRGs,
                         AdmissionChecks := if wsCQ.AdmissionChecks = [] then [ws.Name]
                           else ws.Name :: wsCQ.AdmissionChecks,
                         FairSharing := wsCQ.FairSharing }])) acc
        : Option (List ClusterQueue))
      = some (acc ++ ts.map (mgmtCQEmpty ws)) := by
  intro ts
  induction ts with
  | nil => intro acc h; simp
  | cons t ts' ih =>
    intro acc h
    simp only [List.foldlM_cons, h t (List.mem_cons_self t ts'), Option.bind_eq_bind,
      Option.some_bind]
    have hrest := ih (acc ++ [mgmtCQEmpty ws t])
      (fun t' ht' => h t' (List.mem_cons_of_mem t ht'))
    rw [show (acc ++ [mgmtCQEmpty ws t]) ++ ts'.map (mgmtCQEmpty ws) =
        acc ++ (t :: ts').map (mgmtCQEmpty ws) from by simp] at hrest
    exact hrest

theorem deriveManagementClusterQueuesChecked_all_empty
    (workerSets : List WorkerSet) (m : String → List ClusterConfig)
    (h : ∀ ws ∈ workerSets, ∀ t ∈ ws.ClusterQueues,
      aggregateWorkerQuotasChecked t.Name (m ws.Name) = some []) :
    deriveManagementClusterQueuesChecked workerSets m =
      some (workerSets.flatMap (fun ws => ws.ClusterQueues.map (mgmtCQEmpty ws))) := by
  have hout : ∀ (l : List WorkerSet) (acc : List ClusterQueue),
      (∀ ws ∈ l, ∀ t ∈ ws.ClusterQueues,
        aggregateWorkerQuotasChecked t.Name (m ws.Name) = some []) →
      (l.foldlM (fun cqs ws =>
        ws.ClusterQueues.foldlM (fun cqs' wsCQ => do
          let aggregatedRGs ← aggregateWorkerQuotasChecked wsCQ.Name (m ws.Name)
          pure (cqs' ++ [{ Name := wsCQ.Name, Cohort := wsCQ.Cohort,
                           NamespaceSelector := wsCQ.NamespaceSelector,
                           Preemption := wsCQ.Preemption,
                           ResourceGroups := aggregatedRGs,
                           AdmissionChecks := if wsCQ.AdmissionChecks = [] then [ws.Name]
                             else ws.Name :: wsCQ.AdmissionChecks,
                           FairSharing := wsCQ.FairSharing }])) cqs) acc
        : Option (List ClusterQueue))
      = some (acc ++ l.flatMap (fun ws => ws.ClusterQueues.map (mgmtCQEmpty ws))) := by
    intro l
    induction l with
    | nil => intro acc h'; simp
    | cons ws rest ih =>
      intro acc h'
      simp only [List.foldlM_cons]
      rw [foldlM_cqs_all_empty m ws ws.ClusterQueues acc
        (fun t ht => h' ws (List.mem_cons_self ws rest) t ht)]
      simp only [Option.bind_eq_bind, Option.some_bind]
      have hrest := ih (acc ++ ws.ClusterQueues.map (mgmtCQEmpty ws))
        (fun ws' hws' t ht => h' ws' (List.mem_cons_of_mem ws hws') t ht)
      rw [show (acc ++ ws.ClusterQueues.map (mgmtCQEmpty ws)) ++
          rest.flatMap (fun ws => ws.ClusterQueues.map (mgmtCQEmpty ws)) =
          acc ++ (ws :: rest).flatMap (fun ws => ws.ClusterQueues.map (mgmtCQEmpty ws))
        from by simp] at hrest
      exact hrest
  simpa [deriveManagementClusterQueuesChecked] using hout workerSets [] h

/-- The shape of a non-aborting, non-passthrough result of the panic-aware
derivation. -/
theorem DeriveManagementKueueConfigChecked_eq_some (workerSets : List WorkerSet)
    (expandedWorkers : List ClusterConfig) (mgmt : Option KueueConfig)
    (hne : workerSets ≠ []) (derivedCQs : List ClusterQueue)
    (hd : deriveManagementClusterQueuesChecked workerSets
      (buildWorkersByWS workerSets (buildWorkerByName expandedWorkers)) = some derivedCQs) :
    DeriveManagementKueueConfigChecked workerSets expandedWorkers mgmt = some (some
      { Cohorts := (mgmt.map (·.Cohorts)).getD [],
        PriorityClasses := (mgmt.map (·.PriorityClasses)).getD [],
        ResourceFlavors := deriveManagementResourceFlavors workerSets ++
          (mgmt.map (·.ResourceFlavors)).getD [],
        ClusterQueues := derivedCQs ++ (mgmt.map (·.ClusterQueues)).getD [],
        LocalQueues := deriveManagementLocalQueues workerSets ++
          (mgmt.map (·.LocalQueues)).getD [] }) := by
  cases mgmt <;> simp [DeriveManagementKueueConfigChecked, hne, hd]

/-- Claim C10, amended: `DeriveManagementKueueConfig` has no error return
value but is not total — it panics when a provided expanded worker's
matching ClusterQueue carries an unparsable nominal quota or a mismatched
shape. When no provided expanded worker cluster contains a ClusterQueue
matching any template's name (for example when the expanded-workers
argument is empty or mismatched by name), no panic path is reachable: the
derivation succeeds and still emits, for every template, a derived
ClusterQueue whose ResourceGroups list is empty, rather than failing. -/
theorem claim_c10_no_match_emits_empty_without_failing
    (workerSets : List WorkerSet) (expandedWorkers : List ClusterConfig)
    (mgmt : Option KueueConfig) (hne : workerSets ≠ [])
    (hnomatch : ∀ w ∈ expandedWorkers, ∀ k, w.Kueue = some k → ∀ c ∈ k.ClusterQueues,
      ∀ ws ∈ workerSets, ∀ t ∈ ws.ClusterQueues, c.Name ≠ t.Name) :
    ∃ cfg, DeriveManagementKueueConfigChecked workerSets expandedWorkers mgmt =
        some (some cfg) ∧
      ∀ ws ∈ workerSets, ∀ t ∈ ws.ClusterQueues,
        ∃ cq ∈ cfg.ClusterQueues, cq.Name = t.Name ∧ cq.ResourceGroups = [] := by
  have hagg : ∀ ws ∈ workerSets, ∀ t ∈ ws.ClusterQueues,
      aggregateWorkerQuotasChecked t.Name
        (buildWorkersByWS workerSets (buildWorkerByName expandedWorkers) ws.Name) =
        some [] := by
    intro ws hws t ht
    have hP : ∀ c ∈ buildWorkersByWS workerSets (buildWorkerByName expandedWorkers) ws.Name,
        findWorkerCQ t.Name c = none := by
      intro c hc
      have := buildWorkersByWS_mem (P := fun c => findWorkerCQ t.Name c = none)
        (buildWorkerByName expandedWorkers)
        (fun n w hw => by
          have hmem := buildWorkerByName_mem expandedWorkers n w hw
          cases hk : w.Kueue with
          | none => simp [findWorkerCQ, hk]
          | some k =>
            simp only [findWorkerCQ, hk]
            rw [List.find?_eq_none]
            intro c' hc'
            simpa using hnomatch w hmem k hk c' hc' ws hws t ht)
        (by simp [findWorkerCQ, emptyClusterConfig])
        workerSets (fun _ => []) (by simp) ws.Name
      exact this c hc
    have hfm : (buildWorkersByWS workerSets (buildWorkerByName expandedWorkers)
        ws.Name).filterMap (findWorkerCQ t.Name) = [] := by
      rw [List.filterMap_eq_nil_iff]
      exact hP
    simp [aggregateWorkerQuotasChecked, hfm]
  have hd := deriveManagementClusterQueuesChecked_all_empty workerSets
    (buildWorkersByWS workerSets (buildWorkerByName expandedWorkers)) hagg
  refine ⟨_, DeriveManagementKueueConfigChecked_eq_some workerSets expandedWorkers mgmt
    hne _ hd, ?_⟩
  intro ws hws t ht
  refine ⟨mgmtCQEmpty ws t, ?_, rfl, rfl⟩
  apply List.mem_append_left
  rw [List.mem_flatMap]
  exact ⟨ws, hws, List.mem_map_of_mem _ ht⟩

theorem claim_c10_no_match_emits_empty_without_failing_witness :
    ∃ cfg, DeriveManagementKueueConfigChecked [c10ws] [] none = some (some cfg) ∧
      ∀ ws ∈ [c10ws], ∀ t ∈ ws.ClusterQueues,
        ∃ cq ∈ cfg.ClusterQueues, cq.Name = t.Name ∧ cq.ResourceGroups = [] :=
  claim_c10_no_match_emits_empty_without_failing [c10ws] [] none (by decide) (by decide)

/-! ### Exactness of per-node quota multiplication -/

/-- Claim C2: for a pool with `count ≥ 1` and a parseable per-node quantity
for a covered resource, the expanded nominal quota is the canonical
rendering of a quantity whose exact rational value is `count` times the
per-node value — computed by repeated exact addition, so sub-unit values
are never truncated. -/
theorem claim_c2_pernode_multiplication_exact
    (pool : NodePool) (covered : List String) (out : List Resource)
    (hout : deriveQuotas pool covered = some out)
    (idx : Nat) (hidx : idx < covered.length)
    (s : String) (hs : pool.Resources.lookup (covered.getD idx "") = some s)
    (q : Quantity) (hq : ParseQuantity s = some q)
    (hcount : 1 ≤ pool.Count) :
    ∃ t : Quantity,
      (out.getD idx ⟨"", "", "", ""⟩).Name = covered.getD idx "" ∧
      (out.getD idx ⟨"", "", "", ""⟩).NominalQuota = t.toString ∧
      t.toRat = (pool.Count : ℚ) * q.toRat := by
  induction covered generalizing idx out with
  | nil => exact absurd hidx (by simp)
  | cons c rest ih =>
    simp only [deriveQuotas, Option.bind_eq_bind, Option.bind_eq_some, Option.pure_def,
      Option.some.injEq] at hout
    obtain ⟨s', hs', q', hq', tail, htail, rfl⟩ := hout
    cases idx with
    | zero =>
      simp only [List.getD_cons_zero] at hs
      have hss : s' = s := Option.some.inj (hs'.symm.trans hs)
      have hqq : q' = q := by
        rw [hss] at hq'
        exact Option.some.inj (hq'.symm.trans hq)
      refine ⟨addTimes q (pool.Count - 1).toNat, by simp, by simp [hqq], ?_⟩
      rw [addTimes_toRat]
      congr 1
      have h0 : (((pool.Count - 1).toNat : ℤ)) = pool.Count - 1 :=
        Int.toNat_of_nonneg (by omega)
      calc ((pool.Count - 1).toNat : ℚ) + 1
          = (((pool.Count - 1).toNat : ℤ) : ℚ) + 1 := by push_cast; ring
        _ = ((pool.Count - 1 : ℤ) : ℚ) + 1 := by rw [h0]
        _ = (pool.Count : ℚ) := by push_cast; ring
    | succ n =>
      simp only [List.getD_cons_succ] at hs ⊢
      exact ih tail htail n (by simpa using hidx) hs

theorem claim_c2_pernode_multiplication_exact_witness :
    ∃ t : Quantity,
      (([⟨"memory", "3Ti", "", ""⟩] : List Resource).getD 0 ⟨"", "", "", ""⟩).Name =
        (["memory"].getD 0 "") ∧
      (([⟨"memory", "3Ti", "", ""⟩] : List Resource).getD 0 ⟨"", "", "", ""⟩).NominalQuota =
        t.toString ∧
      t.toRat = ((4 : Int) : ℚ) * (⟨824633720832, 0, Format.binarySI⟩ : Quantity).toRat :=
  claim_c2_pernode_multiplication_exact
    ⟨"mem-pool", 4, [("memory", "768Gi")], [], []⟩ ["memory"]
    [⟨"memory", "3Ti", "", ""⟩] (by decide) 0 (by decide)
    "768Gi" (by decide) ⟨824633720832, 0, Format.binarySI⟩ (by decide) (by decide)

/-- The spec's binary-suffix example: four nodes of 768Gi expand to the
canonical string "3Ti". -/
theorem deriveQuotas_768Gi_count4 :
    deriveQuotas ⟨"p", 4, [("memory", "768Gi")], [], []⟩ ["memory"] =
      some [⟨"memory", "3Ti", "", ""⟩] := by decide

set_option maxRecDepth 4000 in
/-- The spec's decimal example: 100 nodes of 8 GPUs expand to "800". -/
theorem deriveQuotas_gpu_count100 :
    deriveQuotas ⟨"p", 100, [("nvidia.com/gpu", "8")], [], []⟩ ["nvidia.com/gpu"] =
      some [⟨"nvidia.com/gpu", "800", "", ""⟩] := by decide

/-- Sub-unit quantities are not truncated: three nodes of 500m CPU expand
to "1500m", not "0" or "1". -/
theorem deriveQuotas_500m_count3 :
    deriveQuotas ⟨"p", 3, [("cpu", "500m")], [], []⟩ ["cpu"] =
      some [⟨"cpu", "1500m", "", ""⟩] := by decide

/-! ### First-occurrence deduplication, characterized -/

/-- One step of the Go dedup loops: skip an already-seen key, otherwise
record the key and append the emitted element. -/
def dedupFoldStep (key : α → String) (emit : α → β)
    (st : List String × List β) (a : α) : List String × List β :=
  if st.1.contains (key a) then st else (key a :: st.1, st.2 ++ [emit a])

/-- Reference first-occurrence deduplication: keep the head, drop every
later element with the same key. -/
def dedupByKey (key : α → String) : List α → List α
  | [] => []
  | x :: xs => x :: dedupByKey key (xs.filter (fun y => key y != key x))
termination_by l => l.length
decreasing_by
  simp only [List.length_cons]
  exact Nat.lt_succ_of_le (List.length_filter_le _ _)

theorem foldl_foldl_flatMap (f : γ → β → γ) (g : α → List β) :
    ∀ (l : List α) (init : γ),
      l.foldl (fun st a => (g a).foldl f st) init = (l.flatMap g).foldl f init := by
  intro l
  induction l with
  | nil => intro init; rfl
  | cons a rest ih =>
    intro init
    rw [List.foldl_cons, List.flatMap_cons, List.foldl_append, ih]

theorem dedupFold_spec (key : α → String) (emit : α → β) :
    ∀ (l : List α) (seen : List String) (acc : List β),
      (l.foldl (dedupFoldStep key emit) (seen, acc)).2 =
        acc ++ (dedupByKey key (l.filter (fun a => !seen.contains (key a)))).map emit := by
  intro l
  induction l with
  | nil => intro seen acc; simp [dedupByKey]
  | cons a rest ih =>
    intro seen acc
    by_cases h : key a ∈ seen
    · rw [List.foldl_cons]
      have hstep : dedupFoldStep key emit (seen, acc) a = (seen, acc) := by
        simp [dedupFoldStep, h]
      rw [hstep, ih]
      have hfa : (List.filter (fun x => !seen.contains (key x)) (a :: rest)) =
          List.filter (fun x => !seen.contains (key x)) rest := by
        simp [List.filter_cons, h]
      rw [hfa]
    · rw [List.foldl_cons]
      have hstep : dedupFoldStep key emit (seen, acc) a =
          (key a :: seen, acc ++ [emit a]) := by
        simp [dedupFoldStep, h]
      rw [hstep, ih]
      have hfa : (List.filter (fun x => !seen.contains (key x)) (a :: rest)) =
          a :: List.filter (fun x => !seen.contains (key x)) rest := by
        simp [List.filter_cons, h]
      rw [hfa, dedupByKey]
      have hff : List.filter (fun y => key y != key a)
            (List.filter (fun x => !seen.contains (key x)) rest) =
          List.filter (fun x => !(key a :: seen).contains (key x)) rest := by
        rw [List.filter_filter]
        refine List.filter_congr ?_
        intro x _
        simp only [List.contains_cons, Bool.not_or, bne]
      rw [hff]
      simp

theorem deriveManagementResourceFlavors_eq_dedup (workerSets : List WorkerSet) :
    deriveManagementResourceFlavors workerSets =
      (dedupByKey (fun f : WorkerSetFlavor => f.Name)
        (workerSets.flatMap (·.ResourceFlavors))).map
        (fun f => { Name := f.Name, NodeLabels := [], Tolerations := [] }) := by
  have h1 : deriveManagementResourceFlavors workerSets =
      ((workerSets.flatMap (·.ResourceFlavors)).foldl
        (dedupFoldStep (fun f : WorkerSetFlavor => f.Name)
          (fun f => { Name := f.Name, NodeLabels := [], Tolerations := [] }))
        ([], [])).2 := by
    unfold deriveManagementResourceFlavors
    rw [foldl_foldl_flatMap]
    rfl
  rw [h1, dedupFold_spec]
  simp

theorem deriveManagementLocalQueues_eq_dedup (workerSets : List WorkerSet) :
    deriveManagementLocalQueues workerSets =
      dedupByKey lqKey (workerSets.flatMap (·.LocalQueues)) := by
  have h1 : deriveManagementLocalQueues workerSets =
      ((workerSets.flatMap (·.LocalQueues)).foldl
        (dedupFoldStep lqKey (fun lq => lq)) ([], [])).2 := by
    unfold deriveManagementLocalQueues
    rw [foldl_foldl_flatMap]
    rfl
  rw [h1, dedupFold_spec]
  simp

/-- Claim C4, amended: the derived management ResourceFlavors are one
minimal (name-only) flavor per flavor name, in first-seen order over the
concatenation of all WorkerSets' flavor declarations — deduplicated by
name across the ENTIRE WorkerSet list, not only within one WorkerSet, so
two WorkerSets declaring the same flavor name contribute a single entry at
the position of its first occurrence. -/
theorem claim_c4_flavor_dedup_across_workersets (workerSets : List WorkerSet) :
    deriveManagementResourceFlavors workerSets =
      (dedupByKey (fun f : WorkerSetFlavor => f.Name)
        (workerSets.flatMap (·.ResourceFlavors))).map
        (fun f => { Name := f.Name, NodeLabels := [], Tolerations := [] }) :=
  deriveManagementResourceFlavors_eq_dedup workerSets

/-- Claim C5, amended: LocalQueue deduplication by the (namespace, name)
key — first occurrence wins, in WorkerSet declaration order — applies only
among the WorkerSet-declared LocalQueues; the user-authored management
config's LocalQueues are appended after the derived ones without any
deduplication against them. -/
theorem claim_c5_lq_dedup_derived_only (workerSets : List WorkerSet)
    (expandedWorkers : List ClusterConfig) (mgmt : Option KueueConfig)
    (hne : workerSets ≠ []) :
    ∃ cfg, DeriveManagementKueueConfig workerSets expandedWorkers mgmt = some cfg ∧
      cfg.LocalQueues = dedupByKey lqKey (workerSets.flatMap (·.LocalQueues)) ++
        (mgmt.map (·.LocalQueues)).getD [] := by
  refine ⟨_, DeriveManagementKueueConfig_eq_some workerSets expandedWorkers mgmt hne, ?_⟩
  show deriveManagementLocalQueues workerSets ++ _ = _
  rw [deriveManagementLocalQueues_eq_dedup]

theorem claim_c5_lq_dedup_derived_only_witness :
    ∃ cfg, DeriveManagementKueueConfig [c5ws] [] (some c5user) = some cfg ∧
      cfg.LocalQueues = dedupByKey lqKey ([c5ws].flatMap (·.LocalQueues)) ++
        ((some c5user).map (·.LocalQueues)).getD [] :=
  claim_c5_lq_dedup_derived_only [c5ws] [] (some c5user) (by decide)

/-! ### Validation ignores borrowing/lending limits -/

def mapResourceLimits (f g : Resource → String) (r : Resource) : Resource :=
  { r with BorrowingLimit := f r, LendingLimit := g r }

def mapKueueLimits (f g : Resource → String) (k : KueueConfig) : KueueConfig :=
  { k with ClusterQueues := k.ClusterQueues.map (fun cq =>
      { cq with ResourceGroups := cq.ResourceGroups.map (fun rg =>
          { rg with Flavors := rg.Flavors.map (fun fq =>
              { fq with Resources := fq.Resources.map (mapResourceLimits f g) }) }) }) }

def mapTopoLimits (f g : Resource → String) (t : Topology) : Topology :=
  { t with Spec := { t.Spec with Clusters := t.Spec.Clusters.map (fun c =>
      { c with Kueue := c.Kueue.map (mapKueueLimits f g) }) } }

theorem checkCQResources_map_limits (f g : Resource → String) (ci : Nat) (cn : String)
    (cqIdx rgIdx flIdx : Nat) (cqName : String) :
    ∀ (r : Nat) (l : List Resource),
      checkCQResources ci cn cqIdx rgIdx flIdx cqName r (l.map (mapResourceLimits f g)) =
        checkCQResources ci cn cqIdx rgIdx flIdx cqName r l := by
  intro r l
  induction l generalizing r with
  | nil => rfl
  | cons res rest ih => simp [checkCQResources, mapResourceLimits, ih]

theorem checkCQFlavors_map_limits (f g : Resource → String) (ci : Nat) (cn : String)
    (cqIdx rgIdx : Nat) (cqName : String) (flavorNames : List String) :
    ∀ (flIdx : Nat) (l : List FlavorQuotas),
      checkCQFlavors ci cn cqIdx rgIdx cqName flavorNames flIdx
          (l.map (fun fq => { fq with Resources := fq.Resources.map (mapResourceLimits f g) })) =
        checkCQFlavors ci cn cqIdx rgIdx cqName flavorNames flIdx l := by
  intro flIdx l
  induction l generalizing flIdx with
  | nil => rfl
  | cons fq rest ih =>
    simp only [List.map_cons, checkCQFlavors, checkCQResources_map_limits, ih]

theorem checkCQRGs_map_limits (f g : Resource → String) (ci : Nat) (cn : String)
    (cqIdx : Nat) (cqName : String) (flavorNames : List String) :
    ∀ (rgIdx : Nat) (l : List ResourceGroup),
      checkCQRGs ci cn cqIdx cqName flavorNames rgIdx
          (l.map (fun rg => { rg with Flavors := rg.Flavors.map (fun fq =>
            { fq with Resources := fq.Resources.map (mapResourceLimits f g) }) })) =
        checkCQRGs ci cn cqIdx cqName flavorNames rgIdx l := by
  intro rgIdx l
  induction l generalizing rgIdx with
  | nil => rfl
  | cons rg rest ih =>
    simp only [List.map_cons, checkCQRGs, checkCQFlavors_map_limits, ih]

theorem checkCQList_map_limits (f g : Resource → String) (ci : Nat) (cn : String)
    (cohortNames flavorNames : List String) :
    ∀ (k : Nat) (l : List ClusterQueue),
      checkCQList ci cn cohortNames flavorNames k
          (l.map (fun cq => { cq with ResourceGroups := cq.ResourceGroups.map (fun rg =>
            { rg with Flavors := rg.Flavors.map (fun fq =>
              { fq with Resources := fq.Resources.map (mapResourceLimits f g) }) }) })) =
        checkCQList ci cn cohortNames flavorNames k l := by
  intro k l
  induction l generalizing k with
  | nil => rfl
  | cons cq rest ih =>
    simp only [List.map_cons, checkCQList, checkCQ, List.map_eq_nil_iff,
      checkCQRGs_map_limits, ih]

theorem validateKueueConfig_map_limits (f g : Resource → String) (k : KueueConfig)
    (ci : Nat) (cn : String) :
    validateKueueConfig (mapKueueLimits f g k) ci cn = validateKueueConfig k ci cn := by
  unfold validateKueueConfig mapKueueLimits
  simp only [checkCQList_map_limits, List.map_map]
  rfl

theorem validateCluster_map_limits (f g : Resource → String) (c : ClusterConfig) (i : Nat) :
    validateCluster { c with Kueue := c.Kueue.map (mapKueueLimits f g) } i =
      validateCluster c i := by
  unfold validateCluster
  cases c.Kueue with
  | none => rfl
  | some kc => simp [validateKueueConfig_map_limits]

theorem validateClustersLoop_map_limits (f g : Resource → String) :
    ∀ (i : Nat) (l : List ClusterConfig),
      validateClustersLoop i (l.map (fun c => { c with Kueue := c.Kueue.map (mapKueueLimits f g) })) =
        validateClustersLoop i l := by
  intro i l
  induction l generalizing i with
  | nil => rfl
  | cons c rest ih =>
    simp only [List.map_cons, validateClustersLoop, validateCluster_map_limits, ih]

/-- Claim C8, amended: `ValidateTopology` never inspects borrowing or
lending limit values — replacing every borrowing/lending limit in every
cluster's KueueConfig by arbitrary strings (parseable or not) leaves the
validation result unchanged; only nominal quotas are parsed. -/
theorem claim_c8_limits_not_validated (f g : Resource → String) (t : Topology) :
    ValidateTopology (mapTopoLimits f g t) = ValidateTopology t := by
  unfold ValidateTopology mapTopoLimits
  simp only [List.map_eq_nil_iff, validateClustersLoop_map_limits, List.map_map]
  rfl

/-! ### Validation does not reject duplicate ClusterQueue names -/

/-- What the per-ClusterQueue checks of `validateKueueConfig` accept —
note: no uniqueness condition on the name. -/
def CQok (cohortNames flavorNames : List String) (cq : ClusterQueue) : Prop :=
  cq.Name ≠ "" ∧ (cq.Cohort = "" ∨ cq.Cohort ∈ cohortNames) ∧
  cq.ResourceGroups ≠ [] ∧
  ∀ rg ∈ cq.ResourceGroups, ∀ fq ∈ rg.Flavors,
    fq.Name ∈ flavorNames ∧
    ∀ res ∈ fq.Resources, (ParseQuantity res.NominalQuota).isSome = true

theorem checkCQResources_none_iff (ci : Nat) (cn : String) (cqIdx rgIdx flIdx : Nat)
    (cqName : String) :
    ∀ (r : Nat) (l : List Resource),
      checkCQResources ci cn cqIdx rgIdx flIdx cqName r l = none ↔
        ∀ res ∈ l, (ParseQuantity res.NominalQuota).isSome = true := by
  intro r l
  induction l generalizing r with
  | nil => simp [checkCQResources]
  | cons res rest ih =>
    cases hq : ParseQuantity res.NominalQuota with
    | none => simp [checkCQResources, hq]
    | some q => simp [checkCQResources, hq, ih]

theorem checkCQFlavors_none_iff (ci : Nat) (cn : String) (cqIdx rgIdx : Nat)
    (cqName : String) (flavorNames : List String) :
    ∀ (flIdx : Nat) (l : List FlavorQuotas),
      checkCQFlavors ci cn cqIdx rgIdx cqName flavorNames flIdx l = none ↔
        ∀ fq ∈ l, fq.Name ∈ flavorNames ∧
          ∀ res ∈ fq.Resources, (ParseQuantity res.NominalQuota).isSome = true := by
  intro flIdx l
  induction l generalizing flIdx with
  | nil => simp [checkCQFlavors]
  | cons fq rest ih =>
    by_cases hc : fq.Name ∈ flavorNames
    · cases hres : checkCQResources ci cn cqIdx rgIdx flIdx cqName 0 fq.Resources with
      | some e =>
        have hbad : ¬ ∀ res ∈ fq.Resources, (ParseQuantity res.NominalQuota).isSome = true := by
          intro hall
          rw [← checkCQResources_none_iff ci cn cqIdx rgIdx flIdx cqName 0 fq.Resources] at hall
          rw [hres] at hall
          exact Option.noConfusion hall
        simp [checkCQFlavors, hc, hres, hbad]
      | none =>
        have hgood := (checkCQResources_none_iff ci cn cqIdx rgIdx flIdx cqName 0
          fq.Resources).mp hres
        simp [checkCQFlavors, hc, hres, ih, hgood]
        exact fun _ => hgood
    · simp [checkCQFlavors, hc]

theorem checkCQRGs_none_iff (ci : Nat) (cn : String) (cqIdx : Nat)
    (cqName : String) (flavorNames : List String) :
    ∀ (rgIdx : Nat) (l : List ResourceGroup),
      checkCQRGs ci cn cqIdx cqName flavorNames rgIdx l = none ↔
        ∀ rg ∈ l, ∀ fq ∈ rg.Flavors, fq.Name ∈ flavorNames ∧
          ∀ res ∈ fq.Resources, (ParseQuantity res.NominalQuota).isSome = true := by
  intro rgIdx l
  induction l generalizing rgIdx with
  | nil => simp [checkCQRGs]
  | cons rg rest ih =>
    cases hfl : checkCQFlavors ci cn cqIdx rgIdx cqName flavorNames 0 rg.Flavors with
    | some e =>
      have hbad : ¬ ∀ fq ∈ rg.Flavors, fq.Name ∈ flavorNames ∧
          ∀ res ∈ fq.Resources, (ParseQuantity res.NominalQuota).isSome = true := by
        intro hall
        rw [← checkCQFlavors_none_iff ci cn cqIdx rgIdx cqName flavorNames 0 rg.Flavors] at hall
        rw [hfl] at hall
        exact Option.noConfusion hall
      simp [checkCQRGs, hfl, hbad]
    | none =>
      have hgood := (checkCQFlavors_none_iff ci cn cqIdx rgIdx cqName flavorNames 0
        rg.Flavors).mp hfl
      simp [checkCQRGs, hfl, ih, hgood]
      exact fun _ => hgood

theorem checkCQ_none_iff (ci : Nat) (cn : String) (cohortNames flavorNames : List String)
    (k : Nat) (cq : ClusterQueue) :
    checkCQ ci cn cohortNames flavorNames k cq = none ↔ CQok cohortNames flavorNames cq := by
  unfold checkCQ CQok
  by_cases h1 : cq.Name = ""
  · simp [h1]
  · by_cases hc : cq.Cohort = ""
    · by_cases h3 : cq.ResourceGroups = []
      · simp [h1, hc, h3]
      · simp [h1, hc, h3, checkCQRGs_none_iff]
    · by_cases hmem : cq.Cohort ∈ cohortNames
      · by_cases h3 : cq.ResourceGroups = []
        · simp [h1, hc, hmem, h3]
        · simp [h1, hc, hmem, h3, checkCQRGs_none_iff]
      · simp [h1, hc, hmem]

theorem checkCQList_none_iff (ci : Nat) (cn : String) (cohortNames flavorNames : List String) :
    ∀ (k : Nat) (l : List ClusterQueue),
      checkCQList ci cn cohortNames flavorNames k l = none ↔
        ∀ cq ∈ l, CQok cohortNames flavorNames cq := by
  intro k l
  induction l generalizing k with
  | nil => simp [checkCQList]
  | cons cq rest ih =>
    cases hcq : checkCQ ci cn cohortNames flavorNames k cq with
    | some e =>
      have hbad : ¬ CQok cohortNames flavorNames cq := by
        intro hok
        rw [← checkCQ_none_iff ci cn cohortNames flavorNames k cq] at hok
        rw [hcq] at hok
        exact Option.noConfusion hok
      simp [checkCQList, hcq, hbad]
    | none =>
      have hgood := (checkCQ_none_iff ci cn cohortNames flavorNames k cq).mp hcq
      simp [checkCQList, hcq, ih, hgood]

theorem checkCQList_append (ci : Nat) (cn : String) (cohortNames flavorNames : List String) :
    ∀ (k : Nat) (l1 l2 : List ClusterQueue),
      checkCQList ci cn cohortNames flavorNames k (l1 ++ l2) =
        match checkCQList ci cn cohortNames flavorNames k l1 with
        | some e => some e
        | none => checkCQList ci cn cohortNames flavorNames (k + l1.length) l2 := by
  intro k l1
  induction l1 generalizing k with
  | nil => intro l2; simp [checkCQList]
  | cons cq rest ih =>
    intro l2
    cases hcq : checkCQ ci cn cohortNames flavorNames k cq with
    | some e => simp [checkCQList, hcq]
    | none =>
      rw [List.cons_append]
      simp only [checkCQList, hcq]
      rw [ih]
      simp only [List.length_cons]
      have harith : k + 1 + rest.length = k + (rest.length + 1) := by omega
      rw [harith]

theorem checkLQList_congr (ci : Nat) (cn : String) (names1 names2 : List String)
    (h : ∀ x, names1.contains x = names2.contains x) :
    ∀ (k : Nat) (l : List LocalQueue),
      checkLQList ci cn names1 k l = checkLQList ci cn names2 k l := by
  have h2 : ∀ x, (x ∈ names1) ↔ (x ∈ names2) := by
    intro x
    have hx := h x
    simpa using hx
  intro k l
  induction l generalizing k with
  | nil => rfl
  | cons lq rest ih => simp [checkLQList, h2 lq.ClusterQueue, ih]

theorem contains_append_mem (names : List String) (n : String) (h : n ∈ names) :
    ∀ x, (names ++ [n]).contains x = names.contains x := by
  intro x
  have hiff : (x ∈ names ++ [n]) ↔ (x ∈ names) := by
    simp only [List.mem_append, List.mem_singleton]
    constructor
    · rintro (hx | rfl)
      · exact hx
      · exact h
    · exact Or.inl
  simp [hiff]

/-- Claim C9, amended: `validateKueueConfig` requires ClusterQueue names to
be non-empty and references valid, but does NOT require them to be unique:
appending a duplicate of an already-declared ClusterQueue leaves the
validation result unchanged (in particular, a config that validated
successfully still does). -/
theorem claim_c9_duplicate_cq_names_accepted (k : KueueConfig) (ci : Nat) (cn : String)
    (cq : ClusterQueue) (hmem : cq ∈ k.ClusterQueues) :
    validateKueueConfig { k with ClusterQueues := k.ClusterQueues ++ [cq] } ci cn =
      validateKueueConfig k ci cn := by
  unfold validateKueueConfig
  cases hco : validateCohorts k.Cohorts ci cn with
  | some e => simp
  | none =>
    simp only
    cases hfl : checkResourceFlavorNames ci cn k.ResourceFlavors with
    | some e => simp
    | none =>
      simp only
      rw [checkCQList_append]
      cases hcql : checkCQList ci cn (k.Cohorts.map (·.Name)) (k.ResourceFlavors.map (·.Name))
          0 k.ClusterQueues with
      | some e => simp
      | none =>
        have hok := (checkCQList_none_iff ci cn (k.Cohorts.map (·.Name))
          (k.ResourceFlavors.map (·.Name)) 0 k.ClusterQueues).mp hcql
        have hcqnone : checkCQ ci cn (k.Cohorts.map (·.Name)) (k.ResourceFlavors.map (·.Name))
            k.ClusterQueues.length cq = none :=
          (checkCQ_none_iff _ _ _ _ _ cq).mpr (hok cq hmem)
        have hlist : checkCQList ci cn (k.Cohorts.map (·.Name))
            (k.ResourceFlavors.map (·.Name)) (0 + k.ClusterQueues.length) [cq] = none := by
          simp [checkCQList, hcqnone]
        simp only [hlist]
        rw [List.map_append]
        exact checkLQList_congr ci cn _ _
          (contains_append_mem (k.ClusterQueues.map (·.Name)) cq.Name
            (List.mem_map_of_mem (·.Name) hmem)) 0 k.LocalQueues

def c9base : KueueConfig :=
  ⟨[], [⟨"f", [], []⟩], [c9cq "1"], [], []⟩

theorem claim_c9_duplicate_cq_names_accepted_witness :
    validateKueueConfig { c9base with ClusterQueues := c9base.ClusterQueues ++ [c9cq "1"] } 0 "c1" =
      validateKueueConfig c9base 0 "c1" :=
  claim_c9_duplicate_cq_names_accepted c9base 0 "c1" (c9cq "1") (by decide)

/-! ### Quota conservation of the aggregation -/

def rgAt (cq : ClusterQueue) (i : Nat) : ResourceGroup :=
  cq.ResourceGroups.getD i ⟨[], []⟩

def fqAt (cq : ClusterQueue) (i j : Nat) : FlavorQuotas :=
  (rgAt cq i).Flavors.getD j ⟨"", []⟩

def resAt (cq : ClusterQueue) (i j r : Nat) : Resource :=
  (fqAt cq i j).Resources.getD r ⟨"", "", "", ""⟩

/-- Shape identity of two ClusterQueues: same number of resource groups,
of flavors per group, and of resources per flavor. -/
def cqShapeEq (a b : ClusterQueue) : Prop :=
  a.ResourceGroups.length = b.ResourceGroups.length ∧
  ∀ i < b.ResourceGroups.length,
    (rgAt a i).Flavors.length = (rgAt b i).Flavors.length ∧
    ∀ j < (rgAt b i).Flavors.length,
      (fqAt a i j).Resources.length = (fqAt b i j).Resources.length

instance (a b : ClusterQueue) : Decidable (cqShapeEq a b) := by
  unfold cqShapeEq
  infer_instance

theorem mapIdxFrom_length (f : Nat → α → β) :
    ∀ (s : Nat) (l : List α), (mapIdxFrom f s l).length = l.length := by
  intro s l
  induction l generalizing s with
  | nil => rfl
  | cons a as ih => simp [mapIdxFrom, ih]

theorem mapIdxFrom_getD (f : Nat → α → β) (d : α) (d' : β) :
    ∀ (l : List α) (s i : Nat), i < l.length →
      (mapIdxFrom f s l).getD i d' = f (s + i) (l.getD i d) := by
  intro l
  induction l with
  | nil => intro s i h; exact absurd h (by simp)
  | cons a as ih =>
    intro s i h
    cases i with
    | zero => simp [mapIdxFrom]
    | succ n =>
      simp only [mapIdxFrom, List.getD_cons_succ]
      rw [ih (s + 1) n (by simpa using h)]
      congr 1
      omega

theorem addResources_length : ∀ (acc : List Quantity) (rs : List Resource),
    (addResources acc rs).length = acc.length := by
  intro acc
  induction acc with
  | nil => intro rs; cases rs <;> rfl
  | cons a as ih =>
    intro rs
    cases rs with
    | nil => rfl
    | cons r rs' => simp [addResources, ih]

theorem addResources_getD (acc : List Quantity) (rs : List Resource)
    (hlen : rs.length = acc.length) :
    ∀ (k : Nat), k < acc.length →
      (addResources acc rs).getD k zeroQuantity =
        (acc.getD k zeroQuantity).add
          (MustParse (rs.getD k ⟨"", "", "", ""⟩).NominalQuota) := by
  induction acc generalizing rs with
  | nil => intro k hk; exact absurd hk (by simp)
  | cons a as ih =>
    intro k hk
    cases rs with
    | nil => simp at hlen
    | cons r rs' =>
      cases k with
      | zero => rfl
      | succ n =>
        simp only [addResources, List.getD_cons_succ]
        exact ih rs' (by simpa using hlen) n (by simpa using hk)

theorem agg_fold_length (i j : Nat) :
    ∀ (wcqs : List ClusterQueue) (acc : List Quantity),
      (wcqs.foldl (fun acc wcq => addResources acc (resourcesAtIdx wcq i j)) acc).length =
        acc.length := by
  intro wcqs
  induction wcqs with
  | nil => intro acc; rfl
  | cons c cs ih =>
    intro acc
    rw [List.foldl_cons, ih, addResources_length]

theorem agg_fold_toRat (i j k : Nat) :
    ∀ (wcqs : List ClusterQueue) (acc : List Quantity),
      (∀ c ∈ wcqs, (fqAt c i j).Resources.length = acc.length) →
      k < acc.length →
      ((wcqs.foldl (fun acc wcq => addResources acc (resourcesAtIdx wcq i j)) acc).getD
          k zeroQuantity).toRat =
        (acc.getD k zeroQuantity).toRat +
          (wcqs.map (fun c => (MustParse (resAt c i j k).NominalQuota).toRat)).sum := by
  intro wcqs
  induction wcqs with
  | nil => intro acc _ _; simp
  | cons c cs ih =>
    intro acc hlen hk
    rw [List.foldl_cons]
    have hc : (fqAt c i j).Resources.length = acc.length := hlen c (List.mem_cons_self c cs)
    have hstep := addResources_getD acc (resourcesAtIdx c i j) hc k hk
    rw [ih (addResources acc (resourcesAtIdx c i j))
        (fun c' hc' => by rw [addResources_length]; exact hlen c' (List.mem_cons_of_mem c hc'))
        (by rw [addResources_length]; exact hk),
      hstep, Quantity.toRat_add]
    simp only [List.map_cons, List.sum_cons]
    show (acc.getD k zeroQuantity).toRat + (MustParse (resAt c i j k).NominalQuota).toRat + _ = _
    ring

theorem zipWith_getD (f : α → β → γ) (as : List α) (bs : List β)
    (da : α) (db : β) (dc : γ) (r : Nat) (h1 : r < as.length) (h2 : r < bs.length) :
    (List.zipWith f as bs).getD r dc = f (as.getD r da) (bs.getD r db) := by
  have hlen : r < (List.zipWith f as bs).length := by
    rw [List.length_zipWith]
    omega
  rw [List.getD_eq_getElem _ _ hlen, List.getD_eq_getElem _ _ h1,
    List.getD_eq_getElem _ _ h2, List.getElem_zipWith]

/-- Claim C1: when every worker cluster the derivation associates with a
WorkerSet carries a ClusterQueue of the template's name, all of identical
resource-group/flavor/resource shape, the ClusterQueue derived by
`DeriveManagementKueueConfig` has, at every position, a nominal quota that
is the canonical rendering of a quantity whose exact rational value is the
sum of the corresponding workers' parsed nominal quotas. -/
theorem claim_c1_quota_conservation
    (workerSets : List WorkerSet) (expandedWorkers : List ClusterConfig)
    (mgmt : Option KueueConfig) (hne : workerSets ≠ [])
    (ws : WorkerSet) (hws : ws ∈ workerSets)
    (t : WorkerSetClusterQueue) (ht : t ∈ ws.ClusterQueues)
    (workerCQs : List ClusterQueue)
    (hfound : (workersForWS workerSets expandedWorkers ws.Name).filterMap
      (findWorkerCQ t.Name) = workerCQs)
    (T : ClusterQueue) (rest : List ClusterQueue) (hT : workerCQs = T :: rest)
    (hall : ∀ w ∈ workersForWS workerSets expandedWorkers ws.Name,
      (findWorkerCQ t.Name w).isSome = true)
    (hshape : ∀ c ∈ workerCQs, cqShapeEq c T) :
    ∃ cfg, DeriveManagementKueueConfig workerSets expandedWorkers mgmt = some cfg ∧
      ∃ cq ∈ cfg.ClusterQueues, cq.Name = t.Name ∧
        ∀ i < T.ResourceGroups.length, ∀ j < (rgAt T i).Flavors.length,
          ∀ r < (fqAt T i j).Resources.length,
            ∃ q : Quantity,
              (resAt cq i j r).Name = (resAt T i j r).Name ∧
              (resAt cq i j r).NominalQuota = q.toString ∧
              q.toRat = (workerCQs.map
                (fun c => (MustParse (resAt c i j r).NominalQuota).toRat)).sum := by
  subst hT
  refine ⟨_, DeriveManagementKueueConfig_eq_some workerSets expandedWorkers mgmt hne, ?_⟩
  set m := buildWorkersByWS workerSets (buildWorkerByName expandedWorkers) with hm
  refine ⟨mgmtCQ m ws t, ?_, rfl, ?_⟩
  · apply List.mem_append_left
    rw [deriveManagementClusterQueues_eq_flatMap, List.mem_flatMap]
    exact ⟨ws, hws, List.mem_map_of_mem _ ht⟩
  · intro i hi j hj r hr
    have hagg : aggregateWorkerQuotas t.Name (m ws.Name) =
        mapIdxFrom (fun rgIdx rg =>
          { CoveredResources := rg.CoveredResources,
            Flavors := mapIdxFrom (fun flavorIdx flavor =>
              aggFlavor (T :: rest) rgIdx flavorIdx flavor) 0 rg.Flavors })
          0 T.ResourceGroups := by
      show aggregateWorkerQuotas t.Name (workersForWS workerSets expandedWorkers ws.Name) = _
      unfold aggregateWorkerQuotas
      rw [hfound]
    have hrg : rgAt (mgmtCQ m ws t) i =
        { CoveredResources := (rgAt T i).CoveredResources,
          Flavors := mapIdxFrom (fun flavorIdx flavor =>
            aggFlavor (T :: rest) i flavorIdx flavor) 0 (rgAt T i).Flavors } := by
      show (aggregateWorkerQuotas t.Name (m ws.Name)).getD i ⟨[], []⟩ = _
      rw [hagg, mapIdxFrom_getD _ (⟨[], []⟩ : ResourceGroup) _ _ _ i hi]
      simp only [Nat.zero_add]
      rfl
    have hfq : fqAt (mgmtCQ m ws t) i j = aggFlavor (T :: rest) i j (fqAt T i j) := by
      unfold fqAt
      rw [hrg]
      show (mapIdxFrom _ 0 (rgAt T i).Flavors).getD j _ = _
      rw [mapIdxFrom_getD _ (⟨"", []⟩ : FlavorQuotas) _ _ _ j hj]
      simp only [Nat.zero_add]
    set n := (fqAt T i j).Resources.length with hn
    set aggregated := (T :: rest).foldl
      (fun acc wcq => addResources acc (resourcesAtIdx wcq i j))
      (List.replicate n zeroQuantity) with haggr
    have hlens : ∀ c ∈ (T :: rest), (fqAt c i j).Resources.length =
        (List.replicate n zeroQuantity).length := by
      intro c hc
      rw [List.length_replicate]
      exact ((hshape c hc).2 i hi).2 j hj
    have hagglen : aggregated.length = n := by
      rw [haggr, agg_fold_length, List.length_replicate]
    have hres : resAt (mgmtCQ m ws t) i j r =
        { Name := (resAt T i j r).Name,
          NominalQuota := (aggregated.getD r zeroQuantity).toString,
          BorrowingLimit := "", LendingLimit := "" } := by
      unfold resAt
      rw [hfq]
      show (List.zipWith _ (fqAt T i j).Resources aggregated).getD r _ = _
      rw [zipWith_getD _ _ _ (⟨"", "", "", ""⟩ : Resource) zeroQuantity _ r hr
        (by rw [hagglen]; exact hr)]
    refine ⟨aggregated.getD r zeroQuantity, ?_, ?_, ?_⟩
    · rw [hres]
    · rw [hres]
    · rw [haggr, agg_fold_toRat i j r (T :: rest) (List.replicate n zeroQuantity) hlens
        (by rw [List.length_replicate]; exact hr)]
      have hz : ((List.replicate n zeroQuantity).getD r zeroQuantity).toRat = 0 := by
        rw [List.getD_eq_getElem _ _ (by rw [List.length_replicate]; exact hr)]
        simp [List.getElem_replicate, zeroQuantity, Quantity.toRat]
      rw [hz, zero_add]

def c1t : WorkerSetClusterQueue :=
  ⟨"team-cq", "", none, none, [⟨["cpu"], [⟨"cpu-flavor"⟩]⟩], [], none⟩

def c1ws : WorkerSet :=
  ⟨"gpu-ws", [⟨"cpu-flavor", "p"⟩], [c1t], [], [⟨"worker-1", []⟩, ⟨"worker-2", []⟩]⟩

def c1cq (v : String) : ClusterQueue :=
  ⟨"team-cq", "", none, none,
   [⟨["cpu"], [⟨"cpu-flavor", [⟨"cpu", v, "", ""⟩]⟩]⟩], [], none⟩

def c1worker (nm v : String) : ClusterConfig :=
  ⟨nm, "worker", "", [], some ⟨[], [], [c1cq v], [], []⟩⟩

theorem claim_c1_quota_conservation_witness :
    ∃ cfg, DeriveManagementKueueConfig [c1ws]
        [c1worker "worker-1" "9600", c1worker "worker-2" "4800"] none = some cfg ∧
      ∃ cq ∈ cfg.ClusterQueues, cq.Name = c1t.Name ∧
        ∀ i < (c1cq "9600").ResourceGroups.length,
          ∀ j < (rgAt (c1cq "9600") i).Flavors.length,
            ∀ r < (fqAt (c1cq "9600") i j).Resources.length,
              ∃ q : Quantity,
                (resAt cq i j r).Name = (resAt (c1cq "9600") i j r).Name ∧
                (resAt cq i j r).NominalQuota = q.toString ∧
                q.toRat = ([c1cq "9600", c1cq "4800"].map
                  (fun c => (MustParse (resAt c i j r).NominalQuota).toRat)).sum :=
  claim_c1_quota_conservation [c1ws]
    [c1worker "worker-1" "9600", c1worker "worker-2" "4800"] none (by decide)
    c1ws (by decide) c1t (by decide)
    [c1cq "9600", c1cq "4800"] (by decide)
    (c1cq "9600") [c1cq "4800"] (by decide)
    (by decide) (by decide)

/-- The spec's example at the string level: worker quotas "9600" and
"4800" aggregate to the canonical "14400". -/
theorem aggregate_9600_4800_example :
    aggregateWorkerQuotas "team-cq"
      [c1worker "worker-1" "9600", c1worker "worker-2" "4800"] =
      [⟨["cpu"], [⟨"cpu-flavor", [⟨"cpu", "14400", "", ""⟩]⟩]⟩] := by decide

end KueueBench
